import Mathlib

/-!
Verification development for the Planificate itinerary backend.

The definitions below are a shallow embedding of the Python source:

* `src/models/POI.py`, `src/models/ItineraryItem.py`, `src/schemas.py`
  give the record types (`Poi`, `Item`, the write payloads).
* `src/routes/itinerary.py` gives `create_item`, `update_item`,
  `delete_item` and `get_schedule`.
* `src/routes/pois.py` gives `create_poi`, `update_poi` and
  `update_poi_by_id`.
* `src/routes/osm_services.py` gives `optimize_route` and its
  nearest-neighbor ordering.

Timestamps (Python `datetime`) are modelled as integer seconds; a
value `t` has calendar date `dateOf t = t.fdiv 86400` (the date
component of a naive datetime).  Python truthiness on optional values
is modelled explicitly (`none` and numeric `0` and the empty string
are falsy).  The floating-point Haversine distance cannot be embedded
exactly, so the operations that consume it take the distance function
as an explicit parameter `d`; theorems quantify over it.
-/

namespace Planificate

/-- Timestamps in seconds, standing for Python datetimes. -/
abbrev Ts := Int

/-- Calendar date of a timestamp, as a day index (`datetime.date()`). -/
def dateOf (t : Ts) : Int := Int.fdiv t 86400

/-- Python truthiness of an optional integer id (`if payload.poi_id:`):
none and 0 are falsy. -/
def truthyId : Option Nat → Bool
  | none => false
  | some n => n ≠ 0

/-- Python truthiness of an optional float (`if data.get("lat")`):
none and 0.0 are falsy. -/
def truthyQ : Option ℚ → Bool
  | none => false
  | some x => x ≠ 0

/-- Python truthiness of an optional string: none and the empty string
are falsy. -/
def truthyStr : Option String → Bool
  | none => false
  | some s => s ≠ ""

/-- Row of the `pois` table (src/models/POI.py). -/
structure Poi where
  id : Nat
  trip_id : Nat
  name : String
  notes : Option String := none
  lat : Option ℚ := none
  lng : Option ℚ := none
  address : Option String := none
  city : Option String := none
  country : Option String := none
  place_name : Option String := none
  scheduled_at : Option Ts := none
  duration_minutes : Option Int := none
  estimated_cost : Option ℚ := none
deriving DecidableEq

/-- Row of the `itinerary_items` table (src/models/ItineraryItem.py).
`start_ts` is kept optional because the route code repeatedly filters
on `ItineraryItem.start_ts.isnot(None)`. -/
structure Item where
  id : Nat
  trip_id : Nat
  poi_id : Option Nat := none
  name : Option String := none
  start_ts : Option Ts := none
  end_ts : Option Ts := none
  status : Option String := none
deriving DecidableEq

/-- The entity store: trips (only existence matters), POIs and items. -/
structure Db where
  trips : List Nat
  pois : List Poi
  items : List Item
deriving DecidableEq

/-- Primary keys are unique. -/
def IdsOk (db : Db) : Prop :=
  (db.pois.map (·.id)).Nodup ∧ (db.items.map (·.id)).Nodup

instance (db : Db) : Decidable (IdsOk db) := by
  unfold IdsOk; infer_instance

/-- Errors raised through `HTTPException`.  The two duplicate-POI
rejections of `create_poi` are given their own constructor
(`conflictDuplicate existingName sameDay`), carrying the name of the
conflicting POI, since §7 of the spec treats the Conflict kind as
distinguishable. -/
inductive ApiErr where
  | badRequest (detail : String)
  | notFound (detail : String)
  | conflictDuplicate (existingName : String) (sameDay : Bool)
  | badGateway (detail : String)
  | internal (detail : String)
deriving DecidableEq

/-- Schema `ItineraryItemWrite` (src/schemas.py): `start_ts` is a
required field there, so it is not optional in the payload. -/
structure ItemWrite where
  trip_id : Nat
  poi_id : Option Nat := none
  name : Option String := none
  start_ts : Ts
  end_ts : Option Ts := none
  status : Option String := none
deriving DecidableEq

/-- Schema `POIWrite` (src/schemas.py). -/
structure PoiWrite where
  trip_id : Nat
  name : String
  notes : Option String := none
  lat : Option ℚ := none
  lng : Option ℚ := none
  address : Option String := none
  city : Option String := none
  country : Option String := none
  place_name : Option String := none
  scheduled_at : Option Ts := none
  duration_minutes : Option Int := none
  estimated_cost : Option ℚ := none
deriving DecidableEq

/-- Schema `POIUpdate` (src/schemas.py): every field optional, and
`model_dump(exclude_unset=True)` means an outer `none` is an absent
field while `some v` is a provided value (for nullable columns the
provided value is itself optional). -/
structure PoiPatch where
  name : Option String := none
  notes : Option (Option String) := none
  lat : Option (Option ℚ) := none
  lng : Option (Option ℚ) := none
  address : Option (Option String) := none
  city : Option (Option String) := none
  country : Option (Option String) := none
  place_name : Option (Option String) := none
  scheduled_at : Option (Option Ts) := none
  duration_minutes : Option (Option Int) := none
  estimated_cost : Option (Option ℚ) := none
deriving DecidableEq

instance {ε α : Type} [DecidableEq ε] [DecidableEq α] : DecidableEq (Except ε α) := fun a b =>
  match a, b with
  | .error e, .error f =>
    match decEq e f with
    | isTrue h => isTrue (congrArg Except.error h)
    | isFalse h => isFalse (fun hh => h (Except.noConfusion hh id))
  | .ok x, .ok y =>
    match decEq x y with
    | isTrue h => isTrue (congrArg Except.ok h)
    | isFalse h => isFalse (fun hh => h (Except.noConfusion hh id))
  | .error _, .ok _ => isFalse (fun hh => Except.noConfusion hh)
  | .ok _, .error _ => isFalse (fun hh => Except.noConfusion hh)

/-- `db.query(POI).filter_by(id=pid, trip_id=tid).first()`. -/
def findPoiInTrip (db : Db) (pid tid : Nat) : Option Poi :=
  db.pois.find? (fun p => decide (p.id = pid ∧ p.trip_id = tid))

/-- `db.query(ItineraryItem).filter_by(id=iid, trip_id=tid).first()`. -/
def findItemInTrip (db : Db) (iid tid : Nat) : Option Item :=
  db.items.find? (fun it => decide (it.id = iid ∧ it.trip_id = tid))

/-- Fresh autoincrement id for a new item row. -/
def freshItemId (db : Db) : Nat := (db.items.map (·.id)).foldr Nat.max 0 + 1

/-- Fresh autoincrement id for a new POI row. -/
def freshPoiId (db : Db) : Nat := (db.pois.map (·.id)).foldr Nat.max 0 + 1

/-- The item row built from an `ItineraryItemWrite` payload. -/
def mkItem (newId : Nat) (payload : ItemWrite) : Item :=
  { id := newId, trip_id := payload.trip_id, poi_id := payload.poi_id,
    name := payload.name, start_ts := some payload.start_ts,
    end_ts := payload.end_ts, status := payload.status }

/-- The POI side effect shared by `create_item` and `update_item`
(src/routes/itinerary.py lines 36-42 and 79-87): set the referenced
POI `scheduled_at = start_ts` and, when `end_ts` is present, set
`duration_minutes = int((end_ts - start_ts).total_seconds() / 60)`
(Python `int` truncates toward zero, hence `Int.tdiv`). -/
def syncPoiFromItem (db : Db) (pid tid : Nat) (startTs : Ts) (endTs : Option Ts) : Db :=
  { db with pois := db.pois.map (fun p =>
      if p.id = pid ∧ p.trip_id = tid then
        let p1 := { p with scheduled_at := some startTs }
        match endTs with
        | some e => { p1 with duration_minutes := some (Int.tdiv (e - startTs) 60) }
        | none => p1
      else p) }

/-- Embeds `create_item` (src/routes/itinerary.py lines 16-49).
Returns the new state together with the id of the created row. -/
def create_item (tid : Nat) (payload : ItemWrite) (db : Db) : Except ApiErr (Db × Nat) :=
  if payload.trip_id ≠ tid then .error (.badRequest ("trip_id en body no coincide con el path"))
  else if ¬ db.trips.contains tid then .error (.notFound ("Trip no existe"))
  else
    match payload.poi_id, truthyId payload.poi_id with
    | some pid, true =>
      match findPoiInTrip db pid tid with
      | none => .error (.notFound ("POI no existe en este trip"))
      | some _ =>
        let newId := freshItemId db
        let db1 := { db with items := db.items ++ [mkItem newId payload] }
        .ok (syncPoiFromItem db1 pid tid payload.start_ts payload.end_ts, newId)
    | _, _ =>
      let newId := freshItemId db
      .ok ({ db with items := db.items ++ [mkItem newId payload] }, newId)

/-- Embeds `update_item` (src/routes/itinerary.py lines 57-108).
After replacing the item fields from the payload, either the new POI
is synchronized (`payload.poi_id` and `payload.start_ts` truthy), or
else, when the POI reference changed away from a previous POI and no
other item with a non-null `start_ts` still references it, that
previous POI has `scheduled_at` cleared. -/
def update_item (tid iid : Nat) (payload : ItemWrite) (db : Db) : Except ApiErr Db :=
  match findItemInTrip db iid tid with
  | none => .error (.notFound ("Ítem no encontrado"))
  | some item =>
    if truthyId payload.poi_id ∧ (payload.poi_id.bind (fun pid => findPoiInTrip db pid tid)) = none then
      .error (.notFound ("POI no existe en este trip"))
    else if payload.trip_id ≠ tid then
      .error (.badRequest ("No se puede mover el ítem a otro trip desde este endpoint"))
    else
      let newItem : Item :=
        { id := item.id, trip_id := payload.trip_id, poi_id := payload.poi_id,
          name := payload.name, start_ts := some payload.start_ts,
          end_ts := payload.end_ts, status := payload.status }
      let db1 := { db with items := db.items.map (fun it => if it.id = iid ∧ it.trip_id = tid then newItem else it) }
      match payload.poi_id, truthyId payload.poi_id with
      | some pid, true =>
        match findPoiInTrip db1 pid tid with
        | some _ => .ok (syncPoiFromItem db1 pid tid payload.start_ts payload.end_ts)
        | none => .ok db1
      | _, _ =>
        if truthyId item.poi_id ∧ item.poi_id ≠ payload.poi_id then
          match item.poi_id with
          | some op =>
            match findPoiInTrip db1 op tid with
            | some oldPoi =>
              let others := db1.items.filter
                (fun it => decide (it.poi_id = some op ∧ it.id ≠ iid ∧ it.start_ts ≠ none))
              if others.isEmpty then
                let cleared := db1.pois.map
                  (fun p => if p.id = oldPoi.id ∧ p.trip_id = tid then { p with scheduled_at := none } else p)
                .ok { db1 with pois := cleared }
              else .ok db1
            | none => .ok db1
          | none => .ok db1
        else .ok db1

/-- Embeds `delete_item` (src/routes/itinerary.py lines 111-150).
After removing the row: if the item referenced a POI of this trip, the
POI is deleted when no item at all references it any more, its
`scheduled_at` is cleared when items remain but none has a non-null
`start_ts`, and it is left unchanged otherwise. -/
def delete_item (tid iid : Nat) (db : Db) : Except ApiErr Db :=
  match findItemInTrip db iid tid with
  | none => .error (.notFound ("Ítem no encontrado"))
  | some item =>
    let poiId := item.poi_id
    let poi? := match poiId, truthyId poiId with
      | some pid, true => findPoiInTrip db pid tid
      | _, _ => none
    let db1 := { db with items := db.items.filter (fun it => it.id ≠ iid) }
    match poiId, poi? with
    | some pid, some poi =>
      let otherCount := (db1.items.filter (fun it => it.poi_id = some pid)).length
      if otherCount = 0 then
        .ok { db1 with pois := db1.pois.filter (fun p => p.id ≠ poi.id) }
      else
        let schedCount := (db1.items.filter
          (fun it => decide (it.poi_id = some pid ∧ it.start_ts ≠ none))).length
        if schedCount = 0 then
          let cleared := db1.pois.map
            (fun p => if p.id = poi.id then { p with scheduled_at := none } else p)
          .ok { db1 with pois := cleared }
        else .ok db1
    | _, _ => .ok db1

/-- The Haversine distance of `utils/geocoding_helpers.py` (meters)
computes with floating-point trigonometry, which has no exact shallow
embedding; the POI route is therefore parameterized by the distance
function `d lat1 lon1 lat2 lon2`. -/
abbrev DistFn := ℚ → ℚ → ℚ → ℚ → ℚ

/-- Effective date of an existing POI during duplicate checking
(src/routes/pois.py lines 92-109): its own `scheduled_at` date when
present, else the date of the earliest non-null `start_ts` among the
items referencing it (`order_by(start_ts).first()`). -/
def poiEffectiveDate (db : Db) (p : Poi) : Option Int :=
  match p.scheduled_at with
  | some ts => some (dateOf ts)
  | none =>
    match (db.items.filterMap (fun it => if it.poi_id = some p.id then it.start_ts else none)).min? with
    | some ts => some (dateOf ts)
    | none => none

/-- Conflict condition of the duplicate guard for one existing POI, as
the claims state it: same trip, resolved coordinates, within 100
meters inclusive, and either both effective dates present and equal or
both absent. -/
def ConflictsWith (d : DistFn) (db : Db) (tid : Nat) (la lo : ℚ) (newDate : Option Int) (p : Poi) : Prop :=
  p.trip_id = tid ∧ p.lat ≠ none ∧ p.lng ≠ none ∧
    d la lo (p.lat.getD 0) (p.lng.getD 0) ≤ 100 ∧
    ((newDate ≠ none ∧ poiEffectiveDate db p = newDate) ∨
     (newDate = none ∧ poiEffectiveDate db p = none))

instance (d : DistFn) (db : Db) (tid : Nat) (la lo : ℚ) (nd : Option Int) (p : Poi) :
    Decidable (ConflictsWith d db tid la lo nd p) := by
  unfold ConflictsWith; infer_instance

/-- One iteration of the duplicate-guard loop body of `create_poi`
(src/routes/pois.py lines 80-125) for an existing POI: within 100
meters inclusive, reject when the effective dates are both present and
equal (`some (p, true)`) or both absent (`some (p, false)`); any other
combination is tolerated. -/
def poiConflictCheck (d : DistFn) (db : Db) (la lo : ℚ) (newDate : Option Int) (p : Poi) :
    Option (Poi × Bool) :=
  match p.lat, p.lng with
  | some pla, some plo =>
    if d la lo pla plo ≤ 100 then
      match newDate, poiEffectiveDate db p with
      | some nd, some pd => if nd = pd then some (p, true) else none
      | none, none => some (p, false)
      | _, _ => none
    else none
  | _, _ => none

/-- The scan of `create_poi` over existing POIs of the trip with
resolved coordinates (src/routes/pois.py lines 57-125): the first one
within 100 meters whose effective date matches the candidate date
policy triggers rejection.  The boolean records which of the two
rejection messages fires (`true` = same scheduled day). -/
def poiConflict (d : DistFn) (db : Db) (tid : Nat) (la lo : ℚ) (newDate : Option Int) :
    Option (Poi × Bool) :=
  (db.pois.filter (fun p => decide (p.trip_id = tid ∧ p.lat ≠ none ∧ p.lng ≠ none))).findSome?
    (poiConflictCheck d db la lo newDate)

/-- The POI row built from a `POIWrite` payload. -/
def mkPoi (newId : Nat) (payload : PoiWrite) : Poi :=
  { id := newId, trip_id := payload.trip_id, name := payload.name,
    notes := payload.notes, lat := payload.lat, lng := payload.lng,
    address := payload.address, city := payload.city,
    country := payload.country, place_name := payload.place_name,
    scheduled_at := payload.scheduled_at,
    duration_minutes := payload.duration_minutes,
    estimated_cost := payload.estimated_cost }

/-- Embeds `create_poi` (src/routes/pois.py lines 17-131).  The
geocoding enrichment (lines 27-54) only fills fields that are missing
by calling the network oracle; the model takes the payload as already
enriched, so `payload` here is the `data` dict at line 56.  The
duplicate guard runs only when `data.get("lat") and data.get("lng")`
is truthy, that is when both coordinates are present and nonzero.
Returns the new state together with the id of the created row. -/
def create_poi (d : DistFn) (tid : Nat) (payload : PoiWrite) (db : Db) :
    Except ApiErr (Db × Nat) :=
  if payload.trip_id ≠ tid then .error (.badRequest ("trip_id en body no coincide con el path"))
  else if ¬ db.trips.contains tid then .error (.notFound ("Trip no existe"))
  else
    let guard :=
      match payload.lat, payload.lng with
      | some la, some lo =>
        if la ≠ 0 ∧ lo ≠ 0 then
          poiConflict d db tid la lo (payload.scheduled_at.map dateOf)
        else none
      | _, _ => none
    match guard with
    | some (p, sameDay) => .error (.conflictDuplicate p.name sameDay)
    | none =>
      let newId := freshPoiId db
      .ok ({ db with pois := db.pois ++ [mkPoi newId payload] }, newId)

/-- Row after a PUT: every payload field written over the found row,
the primary key kept. -/
def putResult (poi : Poi) (payload : PoiWrite) : Poi :=
  { id := poi.id, trip_id := payload.trip_id, name := payload.name,
    notes := payload.notes, lat := payload.lat, lng := payload.lng,
    address := payload.address, city := payload.city,
    country := payload.country, place_name := payload.place_name,
    scheduled_at := payload.scheduled_at,
    duration_minutes := payload.duration_minutes,
    estimated_cost := payload.estimated_cost }

/-- Embeds `update_poi` (src/routes/pois.py lines 139-153, the PUT
endpoint): after the lookup and the trip check, every payload field is
written to the row unconditionally, with no duplicate check and no
geocoding. -/
def update_poi (tid pid : Nat) (payload : PoiWrite) (db : Db) : Except ApiErr Db :=
  match findPoiInTrip db pid tid with
  | none => .error (.notFound ("POI no encontrado"))
  | some poi =>
    if payload.trip_id ≠ tid then
      .error (.badRequest ("No se puede mover el POI a otro trip desde este endpoint"))
    else
      let pois1 := db.pois.map (fun p => if p.id = pid ∧ p.trip_id = tid then putResult poi payload else p)
      .ok { db with pois := pois1 }

/-- Applies a `POIUpdate` patch: only the provided fields are written
(`model_dump(exclude_unset=True)`), each unconditionally. -/
def applyPatch (poi : Poi) (patch : PoiPatch) : Poi :=
  { poi with
    name := patch.name.getD poi.name,
    notes := patch.notes.getD poi.notes,
    lat := patch.lat.getD poi.lat,
    lng := patch.lng.getD poi.lng,
    address := patch.address.getD poi.address,
    city := patch.city.getD poi.city,
    country := patch.country.getD poi.country,
    place_name := patch.place_name.getD poi.place_name,
    scheduled_at := patch.scheduled_at.getD poi.scheduled_at,
    duration_minutes := patch.duration_minutes.getD poi.duration_minutes,
    estimated_cost := patch.estimated_cost.getD poi.estimated_cost }

/-- Embeds `update_poi_by_id` (src/routes/pois.py lines 169-183, the
PATCH endpoint): lookup by id alone, then the provided fields are
written unconditionally, with no duplicate check and no geocoding. -/
def update_poi_by_id (pid : Nat) (patch : PoiPatch) (db : Db) : Except ApiErr Db :=
  match db.pois.find? (fun p => decide (p.id = pid)) with
  | none => .error (.notFound ("POI no encontrado"))
  | some poi =>
    let pois1 := db.pois.map (fun p => if p.id = poi.id then applyPatch p patch else p)
    .ok { db with pois := pois1 }

/-- Normalized activity of the schedule view (`ScheduleActivity` in
src/schemas.py). -/
structure ScheduleActivity where
  id : String
  type : String
  name : String
  start_time : Option Ts := none
  end_time : Option Ts := none
  duration_minutes : Option Int := none
  poi_id : Option Nat := none
  itinerary_item_id : Option Nat := none
  address : Option String := none
  city : Option String := none
  country : Option String := none
  estimated_cost : Option ℚ := none
  description : Option String := none
deriving DecidableEq

/-- Free-time gap between two consecutive activities (`FreeTimeSlot`
in src/schemas.py). -/
structure FreeTimeSlot where
  start_time : Ts
  end_time : Ts
  duration_minutes : Int
deriving DecidableEq

/-- One day of the schedule view (`ScheduleDay` in src/schemas.py). -/
structure ScheduleDay where
  date : Int
  activities : List ScheduleActivity
  free_time_slots : List FreeTimeSlot
deriving DecidableEq

/-- The whole schedule view (`TripSchedule` in src/schemas.py). -/
structure TripSchedule where
  trip_id : Nat
  days : List ScheduleDay
  unscheduled_pois : List Poi
  unscheduled_items : List Item
deriving DecidableEq

/-- Stand-in for `datetime.min` used as sort key for a missing start
time: seconds from the epoch back to year 1. -/
def dtMin : Ts := -62135596800

/-- Key comparison used to state sortedness. -/
def keyLe {α : Type} (key : α → Int) (a b : α) : Prop := key a ≤ key b

/-- Insert into a list sorted by `key`, before the first strictly
greater element; folding this from the left is a stable sort, the
behavior of the Python `list.sort`. -/
def insertByKey {α : Type} (key : α → Int) (x : α) : List α → List α
  | [] => [x]
  | y :: ys => if key x < key y then x :: y :: ys else y :: insertByKey key x ys

/-- Stable sort by an integer key (Python `sort(key=...)`). -/
def sortByKey {α : Type} (key : α → Int) (l : List α) : List α :=
  l.foldl (fun acc x => insertByKey key x acc) []

/-- Sort key of an activity: `a.start_time or datetime.min`
(src/routes/itinerary.py line 238). -/
def startKey (a : ScheduleActivity) : Int := a.start_time.getD dtMin

/-- Projection of a scheduled POI into an activity
(src/routes/itinerary.py lines 192-211).  The end time is computed
only under `if poi.scheduled_at and poi.duration_minutes:`, so a
duration of 0 (falsy) leaves it null. -/
def poiActivity (p : Poi) : ScheduleActivity :=
  let endT : Option Ts :=
    match p.scheduled_at, p.duration_minutes with
    | some ts, some dm => if dm ≠ 0 then some (ts + dm * 60) else none
    | _, _ => none
  { id := "poi_" ++ toString p.id, type := "poi", name := p.name,
    start_time := p.scheduled_at, end_time := endT,
    duration_minutes := p.duration_minutes, poi_id := some p.id,
    address := p.address, city := p.city, country := p.country,
    estimated_cost := p.estimated_cost, description := p.notes }

/-- The `item.poi` relationship: lookup of the referenced POI row. -/
def itemPoi (db : Db) (it : Item) : Option Poi :=
  it.poi_id.bind (fun pid => db.pois.find? (fun p => decide (p.id = pid)))

/-- Projection of a scheduled item into an activity
(src/routes/itinerary.py lines 214-235), with the name falling back to
the referenced POI name and then to a placeholder. -/
def itemActivity (db : Db) (it : Item) : ScheduleActivity :=
  let poi? := itemPoi db it
  let base := it.name.getD ""
  let nm := if base ≠ "" then base
    else match poi? with
      | some p => p.name
      | none => "Actividad sin nombre"
  let dur : Option Int :=
    match it.end_ts, it.start_ts with
    | some e, some s => some (Int.tdiv (e - s) 60)
    | _, _ => none
  { id := "item_" ++ toString it.id, type := "itinerary_item", name := nm,
    start_time := it.start_ts, end_time := it.end_ts,
    duration_minutes := dur, itinerary_item_id := some it.id,
    poi_id := it.poi_id, address := poi?.bind (·.address),
    city := poi?.bind (·.city), country := poi?.bind (·.country),
    description := poi?.bind (·.notes) }

/-- Appends an activity to the bucket of its day, keeping the
first-appearance order of days (Python dict insertion order). -/
def addToDays (days : List (Int × List ScheduleActivity)) (dk : Int) (a : ScheduleActivity) :
    List (Int × List ScheduleActivity) :=
  match days with
  | [] => [(dk, [a])]
  | (k, acts) :: rest =>
    if k = dk then (k, acts ++ [a]) :: rest else (k, acts) :: addToDays rest dk a

/-- Grouping of activities by the date of their start time
(src/routes/itinerary.py lines 241-249); activities without a start
time are skipped. -/
def groupByDay : List ScheduleActivity → List (Int × List ScheduleActivity) →
    List (Int × List ScheduleActivity)
  | [], acc => acc
  | a :: rest, acc =>
    match a.start_time with
    | none => groupByDay rest acc
    | some ts => groupByDay rest (addToDays acc (dateOf ts) a)

/-- The free-time scan of one day (src/routes/itinerary.py lines
257-272): consecutive pairs with a known end and start and a gap of at
least 15 minutes emit a slot whose duration is the truncated whole
number of minutes.  The code tests `gap_minutes >= 15` with
`gap_minutes = (start - end).total_seconds() / 60`; over whole-second
timestamps that is exactly `900 ≤ s - e`.  The duration
`int(gap_minutes)` truncates toward zero, which is `Int.tdiv`. -/
def freeSlots : List ScheduleActivity → List FreeTimeSlot
  | a :: b :: rest =>
    (match a.end_time, b.start_time with
     | some e, some s =>
       if 900 ≤ s - e then
         ⟨e, s, Int.tdiv (s - e) 60⟩ :: freeSlots (b :: rest)
       else freeSlots (b :: rest)
     | _, _ => freeSlots (b :: rest))
  | _ => []

/-- Free-time windows as §4.3 step 6 of the spec words them: over the
consecutive pairs, when both bounds are known and the difference is at
least 15 minutes, one window with its duration in whole minutes. -/
def gapWindow (pr : ScheduleActivity × ScheduleActivity) : Option FreeTimeSlot :=
  match pr.1.end_time, pr.2.start_time with
  | some e, some s =>
    if 15 * 60 ≤ s - e then some ⟨e, s, Int.tdiv (s - e) 60⟩ else none
  | _, _ => none

/-- Spec-side free-time windows: `filterMap` of `gapWindow` over the
consecutive pairs of the day. -/
def specFreeSlots (l : List ScheduleActivity) : List FreeTimeSlot :=
  (l.zip l.tail).filterMap gapWindow

/-- Scheduled POIs of the trip in `order_by(scheduled_at)` order. -/
def scheduledPois (tid : Nat) (db : Db) : List Poi :=
  sortByKey (fun p => p.scheduled_at.getD dtMin)
    (db.pois.filter (fun p => decide (p.trip_id = tid ∧ p.scheduled_at ≠ none)))

/-- Scheduled items of the trip in `order_by(start_ts)` order. -/
def scheduledItems (tid : Nat) (db : Db) : List Item :=
  sortByKey (fun it => it.start_ts.getD dtMin)
    (db.items.filter (fun it => decide (it.trip_id = tid ∧ it.start_ts ≠ none)))

/-- All projected activities, POIs first then items, before the global
sort (src/routes/itinerary.py lines 189-235). -/
def allActivities (tid : Nat) (db : Db) : List ScheduleActivity :=
  (scheduledPois tid db).map poiActivity ++ (scheduledItems tid db).map (itemActivity db)

/-- One finished day bucket: activities re-sorted by start time, then
the free-time scan (src/routes/itinerary.py lines 252-272). -/
def buildDay (pr : Int × List ScheduleActivity) : ScheduleDay :=
  let sorted := sortByKey startKey pr.2
  ⟨pr.1, sorted, freeSlots sorted⟩

/-- Embeds `get_schedule` (src/routes/itinerary.py lines 153-317). -/
def get_schedule (tid : Nat) (db : Db) : Except ApiErr TripSchedule :=
  if ¬ db.trips.contains tid then .error (.notFound ("Trip no existe"))
  else
    let sorted := sortByKey startKey (allActivities tid db)
    let days := (groupByDay sorted []).map buildDay
    let daysSorted := sortByKey (fun dy => dy.date) days
    let unschedPois := db.pois.filter (fun p => decide (p.trip_id = tid ∧ p.scheduled_at = none))
    let unschedItems := db.items.filter (fun it => decide (it.trip_id = tid ∧ it.start_ts = none))
    .ok ⟨tid, daysSorted, unschedPois, unschedItems⟩

/-- Distance matrix of `optimize_route` (src/routes/osm_services.py
lines 281-291): zero diagonal, and for `i < j` the Haversine value of
`(points[i], points[j])` mirrored to `(j, i)`, so the matrix is
symmetric by construction.  The parameter `d` stands for the local
`haversine_distance` of that function. -/
def distMat (d : DistFn) (pts : List (ℚ × ℚ)) (i j : Nat) : ℚ :=
  if i = j then 0
  else
    let a := if i < j then pts.getD i (0, 0) else pts.getD j (0, 0)
    let b := if i < j then pts.getD j (0, 0) else pts.getD i (0, 0)
    d a.1 a.2 b.1 b.2

/-- The inner selection loop of the nearest-neighbor step
(src/routes/osm_services.py lines 298-307): scan the unvisited indices
in ascending order keeping a strict improvement, which retains the
first minimum, hence the lowest index among minimizers. -/
def selectNearest (dist : Nat → ℚ) (candidates : List Nat) : Option Nat :=
  candidates.foldl
    (fun best j =>
      match best with
      | none => some j
      | some b => if dist j < dist b then some j else best)
    none

/-- The nearest-neighbor loop: the code iterates `n - 1` times
(`fuel`), each time moving from the current index to the selected
nearest unvisited one. -/
def nnLoop (dist : Nat → Nat → ℚ) : Nat → Nat → List Nat → List Nat
  | 0, _, _ => []
  | fuel + 1, current, remaining =>
    match selectNearest (dist current) remaining with
    | none => nnLoop dist fuel current remaining
    | some j => j :: nnLoop dist fuel j (remaining.erase j)

/-- The visiting order before the roundtrip closure: start at index 0
and run the nearest-neighbor loop over the other indices
(src/routes/osm_services.py lines 293-310). -/
def visitOrderCore (d : DistFn) (pts : List (ℚ × ℚ)) : List Nat :=
  let n := pts.length
  0 :: nnLoop (distMat d pts) (n - 1) 0 ((List.range n).filter (fun j => decide (j ≠ 0)))

/-- The full visiting order: when `roundtrip` is set the starting
index (`order[0]`, which is 0) is appended once to close the loop
(src/routes/osm_services.py lines 312-314). -/
def visitOrder (d : DistFn) (pts : List (ℚ × ℚ)) (roundtrip : Bool) : List Nat :=
  let ord := visitOrderCore d pts
  if roundtrip then ord ++ [ord.headD 0] else ord

/-- Greedy nearest-neighbor chain, as the spec words it: from the
current index, the next visited index is an unvisited one of minimal
distance, equidistant ties resolved to the lowest index, until all are
visited. -/
inductive IsGreedy (dist : Nat → Nat → ℚ) : Nat → List Nat → List Nat → Prop
  | nil (cur : Nat) : IsGreedy dist cur [] []
  | cons {cur j : Nat} {rem out : List Nat} :
      j ∈ rem →
      (∀ k ∈ rem, dist cur j < dist cur k ∨ (dist cur j = dist cur k ∧ j ≤ k)) →
      IsGreedy dist j (rem.erase j) out →
      IsGreedy dist cur rem (j :: out)

/-- Road route data extracted from an OSRM reply (`data["routes"][0]`:
distance, duration, encoded polyline). -/
structure RouteData where
  distance : ℚ
  duration : ℚ
  geometry : String
deriving DecidableEq

/-- Outcome of one OSRM `/route` HTTP call: either the request itself
raises `httpx.HTTPError` (network error or timeout), or a JSON body
with a status `code`, an optional `message` and the routes list. -/
inductive OracleReply where
  | netErr (msg : String)
  | reply (code : String) (message : Option String) (routes : List RouteData)
deriving DecidableEq

/-- Result model of `optimize_route` (`OptimizeResponse`): the route
numbers plus the `waypoint_index` list reported to the caller. -/
structure OptimizeResult where
  distance : ℚ
  duration : ℚ
  geometry : String
  waypoints : List Nat
deriving DecidableEq

/-- How `optimize_route` turns a failed oracle call into an error:
`httpx.HTTPError` becomes a 502 carrying the message, a non-"Ok"
status becomes a 400 carrying the upstream message
(src/routes/osm_services.py lines 233-242 and 324-333). -/
def upstreamErr : OracleReply → Option ApiErr
  | .netErr m => some (.badGateway ("OSRM API error: " ++ m))
  | .reply code msg _ =>
    if code ≠ "Ok" then some (.badRequest ("OSRM error: " ++ msg.getD "Unknown")) else none

/-- The list of points sent to the oracle by `optimize_route`: the two
input points verbatim when there are exactly 2, else the points
reordered by the visiting order, without the synthetic closing point
when roundtrip (src/routes/osm_services.py lines 228-229 and 316-320). -/
def calledPoints (d : DistFn) (pts : List (ℚ × ℚ)) (roundtrip : Bool) : List (ℚ × ℚ) :=
  if pts.length = 2 then pts
  else
    let ord := visitOrder d pts roundtrip
    let ordForCall := if roundtrip then ord.dropLast else ord
    ordForCall.map (fun i => pts.getD i (0, 0))

/-- Embeds `optimize_route` (src/routes/osm_services.py lines
210-350).  `oracle` stands for the OSRM `/route` call, `cached` for
the entry found under the request fingerprint (`none` is a cache
miss).  An `Ok` reply with an empty routes list would make the Python
handler raise `IndexError` (HTTP 500), modelled by the internal
error. -/
def optimize_route (oracle : List (ℚ × ℚ) → OracleReply) (d : DistFn)
    (pts : List (ℚ × ℚ)) (roundtrip : Bool) (cached : Option OptimizeResult) :
    Except ApiErr OptimizeResult :=
  if pts.length < 2 then .error (.badRequest ("Need at least 2 points"))
  else
    match cached with
    | some r => .ok r
    | none =>
      let wps := if pts.length = 2 then [0, 1]
        else
          let ord := visitOrder d pts roundtrip
          if roundtrip then ord.dropLast else ord
      match oracle (calledPoints d pts roundtrip) with
      | .netErr m => .error (.badGateway ("OSRM API error: " ++ m))
      | .reply code msg routes =>
        if code ≠ "Ok" then .error (.badRequest ("OSRM error: " ++ msg.getD "Unknown"))
        else
          match routes with
          | r :: _ => .ok ⟨r.distance, r.duration, r.geometry, wps⟩
          | [] => .error (.internal ("IndexError: routes"))

/-! Concrete instances used by witnesses and counterexamples. -/

/-- A POI with an item binding, for exercising the deletion cascade. -/
def poiW1 : Poi := { id := 2, trip_id := 1, name := "Museo", scheduled_at := some 1000, duration_minutes := some 45 }

/-- The only item referencing `poiW1`. -/
def itemW1 : Item := { id := 10, trip_id := 1, poi_id := some 2, start_ts := some 1000, end_ts := some 3700 }

/-- State before the deletion exercised by the witness. -/
def dbW1 : Db := { trips := [1], pois := [poiW1], items := [itemW1] }

/-- Items still referencing POI `pid` in a state. -/
def remainingRefs (db2 : Db) (pid : Nat) : List Item :=
  db2.items.filter (fun it => it.poi_id = some pid)

/-- Outcome of deleting an item that references POI `pid`: the row is
removed and, depending on the remaining references, the POI is deleted
entirely, retained with `scheduled_at` cleared, or left unchanged. -/
def deleteCascadePost (db : Db) (tid iid pid : Nat) (poi : Poi) : Prop :=
  ∃ db2, delete_item tid iid db = .ok db2 ∧
    db2.items = db.items.filter (fun it => it.id ≠ iid) ∧
    (remainingRefs db2 pid = [] → ∀ p ∈ db2.pois, p.id ≠ pid) ∧
    (remainingRefs db2 pid ≠ [] → (∀ r ∈ remainingRefs db2 pid, r.start_ts = none) →
       { poi with scheduled_at := none } ∈ db2.pois ∧
       ∀ p ∈ db2.pois, p.id = pid → p = { poi with scheduled_at := none }) ∧
    (remainingRefs db2 pid ≠ [] → (∃ r ∈ remainingRefs db2 pid, r.start_ts ≠ none) →
       poi ∈ db2.pois ∧ ∀ p ∈ db2.pois, p.id = pid → p = poi)

/-- An ItineraryItem mutation that carries a payload: the create and
update endpoints share the POI synchronization rule. -/
inductive WriteReq where
  | create (payload : ItemWrite)
  | update (iid : Nat) (payload : ItemWrite)

/-- The payload of a write request. -/
def reqPayload : WriteReq → ItemWrite
  | .create payload => payload
  | .update _ payload => payload

/-- Runs a write request against the store, forgetting the id a
creation returns. -/
def applyWrite (tid : Nat) (req : WriteReq) (db : Db) : Except ApiErr Db :=
  match req with
  | .create payload => (create_item tid payload db).map (·.1)
  | .update iid payload => update_item tid iid payload db

/-- Payload of the synchronization witness: 90 whole minutes. -/
def payW3 : ItemWrite := { trip_id := 1, poi_id := some 2, start_ts := 100, end_ts := some 5500 }

/-- State with one POI and no items, for the synchronization witness. -/
def dbW3 : Db := { trips := [1], pois := [{ id := 2, trip_id := 1, name := "Parque" }], items := [] }

/-- State after the witness creation. -/
def dbW3post : Db := (applyWrite 1 (.create payW3) dbW3).toOption.getD dbW3

/-- Payload whose item lasts 91.5 minutes (5490 seconds), where
truncation and rounding disagree. -/
def payX3 : ItemWrite := { trip_id := 1, poi_id := some 2, start_ts := 0, end_ts := some 5490 }

/-- State with one POI and no items, for the truncation counterexample. -/
def dbX3 : Db := { trips := [1], pois := [{ id := 2, trip_id := 1, name := "Parque" }], items := [] }


/-- POI cleared by the witness update away from it. -/
def poiW4 : Poi := { id := 2, trip_id := 1, name := "Castillo", scheduled_at := some 500 }

/-- The only item referencing `poiW4` before the witness update. -/
def itemW4 : Item := { id := 10, trip_id := 1, poi_id := some 2, start_ts := some 500 }

/-- Witness payload dropping the POI reference. -/
def payW4 : ItemWrite := { trip_id := 1, poi_id := none, start_ts := 900 }

/-- State before the witness update. -/
def dbW4 : Db := { trips := [1], pois := [poiW4], items := [itemW4] }

/-- State after the witness update. -/
def dbW4post : Db := (update_item 1 10 payW4 dbW4).toOption.getD dbW4

/-- Previous POI of the counterexample update. -/
def poiX4a : Poi := { id := 2, trip_id := 1, name := "Faro", scheduled_at := some 500 }

/-- New POI of the counterexample update. -/
def poiX4b : Poi := { id := 3, trip_id := 1, name := "Playa" }

/-- The only item of the counterexample, referencing the previous POI. -/
def itemX4 : Item := { id := 10, trip_id := 1, poi_id := some 2, start_ts := some 500 }

/-- Counterexample payload moving the item to the new POI with a
start time. -/
def payX4 : ItemWrite := { trip_id := 1, poi_id := some 3, start_ts := 900 }

/-- State before the counterexample update. -/
def dbX4 : Db := { trips := [1], pois := [poiX4a, poiX4b], items := [itemX4] }


/-- Distance function for concrete inputs: 0 at coincident
coordinates (as the Haversine formula gives), else above threshold. -/
def dEqW : DistFn := fun a b c e => if a = c ∧ b = e then 0 else 101

/-- Existing POI of the duplicate-guard witness. -/
def poiW2 : Poi := { id := 1, trip_id := 1, name := "Mirador", lat := some 3, lng := some 5 }

/-- State of the duplicate-guard witness. -/
def dbW2 : Db := { trips := [1], pois := [poiW2], items := [] }

/-- Candidate payload of the duplicate-guard witness, at the same
coordinates with no date. -/
def payW2 : PoiWrite := { trip_id := 1, name := "Mirador bis", lat := some 3, lng := some 5 }

/-- Existing POI on the equator (latitude 0) for the counterexample. -/
def poiX2 : Poi := { id := 1, trip_id := 1, name := "Ecuador", lat := some 0, lng := some 5 }

/-- State of the latitude-zero counterexample. -/
def dbX2 : Db := { trips := [1], pois := [poiX2], items := [] }

/-- Candidate duplicating `poiX2` exactly, with resolved but zero
latitude. -/
def payX2 : PoiWrite := { trip_id := 1, name := "Ecuador bis", lat := some 0, lng := some 5 }

/-- Candidate without coordinates, for the bypass witness. -/
def payW8 : PoiWrite := { trip_id := 1, name := "Sin mapa" }

/-- Existing POI on the prime meridian (longitude 0) for the
counterexample. -/
def poiX8 : Poi := { id := 1, trip_id := 1, name := "Meridiano", lat := some 7, lng := some 0 }

/-- State of the longitude-zero counterexample. -/
def dbX8 : Db := { trips := [1], pois := [poiX8], items := [] }

/-- Candidate duplicating `poiX8` exactly, with resolved but zero
longitude. -/
def payX8 : PoiWrite := { trip_id := 1, name := "Meridiano bis", lat := some 7, lng := some 0 }


/-- POI rewritten by the no-conflict-update witness. -/
def poiW10 : Poi := { id := 2, trip_id := 1, name := "Plaza", lat := some 1, lng := some 2, scheduled_at := some 100 }

/-- Same-trip POI whose coordinates the witness update duplicates. -/
def poiW10b : Poi := { id := 3, trip_id := 1, name := "Mercado", lat := some 4, lng := some 6 }

/-- State of the update witness. -/
def dbW10 : Db := { trips := [1], pois := [poiW10, poiW10b], items := [] }

/-- PUT payload moving POI 2 onto the coordinates of POI 3. -/
def payW10 : PoiWrite := { trip_id := 1, name := "Plaza", lat := some 4, lng := some 6, scheduled_at := some 200 }

/-- PATCH payload moving POI 2 onto the coordinates of POI 3. -/
def patchW10 : PoiPatch := { lat := some (some 4), lng := some (some 6) }


/-- An oracle that always fails with a timeout-style network error. -/
def oracleDown9 : List (ℚ × ℚ) → OracleReply := fun _ => .netErr "timeout"

/-- Three concrete points for the upstream-failure witness. -/
def ptsW9 : List (ℚ × ℚ) := [(0, 0), (1, 0), (2, 0)]


/-- The running best of the nearest-unvisited scan, folding the strict
improvement test of the code over the candidates in ascending order. -/
def bestFold (dist : Nat → ℚ) (b : Nat) (l : List Nat) : Nat :=
  l.foldl (fun b j => if dist j < dist b then j else b) b

/-- The nearest-neighbor contract: the visiting order is the core tour
with the start appended when roundtrip; the tour starts at index 0,
visits every index exactly once, follows the greedy lowest-tie step
relation over the matrix, and the matrix is symmetric. -/
def nnPost (d : DistFn) (pts : List (ℚ × ℚ)) (rt : Bool) : Prop :=
  visitOrder d pts rt = (if rt then visitOrderCore d pts ++ [0] else visitOrderCore d pts)
  ∧ (visitOrderCore d pts).head? = some 0
  ∧ (visitOrderCore d pts).Perm (List.range pts.length)
  ∧ IsGreedy (distMat d pts) 0 ((List.range pts.length).filter (fun j => decide (j ≠ 0)))
      (visitOrderCore d pts).tail
  ∧ (∀ i j, distMat d pts i j = distMat d pts j i)

/-- Four concrete points for the nearest-neighbor witness. -/
def ptsW7 : List (ℚ × ℚ) := [(0, 0), (3, 0), (1, 0), (2, 0)]


/-- Scheduled POI of the schedule witness (30-minute visit at the
epoch). -/
def poiW5 : Poi := { id := 1, trip_id := 1, name := "Torre", scheduled_at := some 0, duration_minutes := some 30 }

/-- Scheduled item of the schedule witness (an hour later, leaving a
30-minute gap). -/
def itemW5 : Item := { id := 10, trip_id := 1, name := some "Paseo", start_ts := some 3600, end_ts := some 7200 }

/-- State of the schedule witness. -/
def dbW5 : Db := { trips := [1], pois := [poiW5], items := [itemW5] }

/-- The schedule computed for the witness state. -/
def schedW5 : TripSchedule := (get_schedule 1 dbW5).toOption.getD ⟨0, [], [], []⟩

/-- Scheduled POI with an explicit zero duration. -/
def poiX6 : Poi := { id := 1, trip_id := 1, name := "Fuente", scheduled_at := some 0, duration_minutes := some 0 }

/-- State of the zero-duration counterexample. -/
def dbX6 : Db := { trips := [1], pois := [poiX6], items := [] }


/-- Projection contract of a schedule for the POIs of a trip: every
activity of type `poi` comes from a scheduled POI of the trip, starts
at its `scheduled_at`, ends at start plus its duration when that is
set and nonzero, and has a null end when it is unset or zero. -/
def poiProjectionPost (tid : Nat) (db : Db) (sched : TripSchedule) : Prop :=
  ∀ day ∈ sched.days, ∀ a ∈ day.activities, a.type = "poi" →
    ∃ p ∈ db.pois, p.trip_id = tid ∧ ∃ t, p.scheduled_at = some t ∧ a = poiActivity p ∧
      a.start_time = some t ∧
      (∀ dm, p.duration_minutes = some dm → dm ≠ 0 → a.end_time = some (t + dm * 60)) ∧
      ((p.duration_minutes = none ∨ p.duration_minutes = some 0) → a.end_time = none)

/-! Theorems. -/

/-- With duplicate-free keys, `find?` returns the unique member whose
key the predicate pins down. -/
theorem find?_eq_some_of_nodup_key {α : Type} (key : α → Nat) (p : α → Bool)
    (l : List α) (hnd : (l.map key).Nodup) (a : α) (ha : a ∈ l) (hpa : p a = true)
    (hkey : ∀ x, p x = true → key x = key a) : l.find? p = some a := by
  induction l with
  | nil => cases ha
  | cons b l ih =>
    simp only [List.map_cons, List.nodup_cons] at hnd
    rcases List.mem_cons.mp ha with rfl | ha2
    · exact List.find?_cons_of_pos _ hpa
    · have hb : p b = false := by
        cases hpb : p b with
        | false => rfl
        | true =>
          exact absurd ((hkey b hpb) ▸ List.mem_map_of_mem key ha2) hnd.1
      rw [List.find?_cons_of_neg _ (by simp [hb])]
      exact ih hnd.2 ha2

/-- With duplicate-free keys, two members with the same key coincide. -/
theorem eq_of_mem_nodup_key {α : Type} (key : α → Nat) (l : List α)
    (hnd : (l.map key).Nodup) (a b : α) (ha : a ∈ l) (hb : b ∈ l)
    (hk : key a = key b) : a = b := by
  induction l with
  | nil => cases ha
  | cons c l ih =>
    simp only [List.map_cons, List.nodup_cons] at hnd
    rcases List.mem_cons.mp ha with rfl | ha2 <;> rcases List.mem_cons.mp hb with rfl | hb2
    · rfl
    · exact absurd (hk ▸ List.mem_map_of_mem key hb2) hnd.1
    · exact absurd (hk ▸ List.mem_map_of_mem key ha2) hnd.1
    · exact ih hnd.2 ha2 hb2

/-- The per-POI guard check tolerates an existing POI exactly when the
conjunction of the claims conditions fails for it. -/
theorem poiConflictCheck_none_iff (d : DistFn) (db : Db) (la lo : ℚ) (nd : Option Int) (p : Poi) :
    poiConflictCheck d db la lo nd p = none ↔
      ¬ (p.lat ≠ none ∧ p.lng ≠ none ∧ d la lo (p.lat.getD 0) (p.lng.getD 0) ≤ 100 ∧
         ((nd ≠ none ∧ poiEffectiveDate db p = nd) ∨ (nd = none ∧ poiEffectiveDate db p = none))) := by
  unfold poiConflictCheck
  cases hla : p.lat with
  | none => simp
  | some pla =>
    cases hlo : p.lng with
    | none => simp
    | some plo =>
      simp only [Option.getD_some]
      by_cases hd : d la lo pla plo ≤ 100
      · rw [if_pos hd]
        cases nd with
        | none =>
          cases he : poiEffectiveDate db p <;> simp [he, hd]
        | some n =>
          cases he : poiEffectiveDate db p with
          | none => simp [he, hd]
          | some m =>
            by_cases hnm : n = m
            · subst hnm; simp [he, hd]
            · simp [he, hd, hnm, Ne.symm hnm]
      · rw [if_neg hd]
        simp [hd]

/-- A rejection produced by the per-POI check names that POI. -/
theorem poiConflictCheck_some_eq (d : DistFn) (db : Db) (la lo : ℚ) (nd : Option Int)
    (p q : Poi) (sd : Bool) (h : poiConflictCheck d db la lo nd p = some (q, sd)) : q = p := by
  unfold poiConflictCheck at h
  split at h
  · split at h
    · split at h
      · split at h
        · exact (Prod.mk.injEq .. ▸ (Option.some.injEq .. ▸ h)).1.symm
        · cases h
      · exact (Prod.mk.injEq .. ▸ (Option.some.injEq .. ▸ h)).1.symm
      · cases h
    · cases h
  · cases h

/-- A rejection produced by the per-POI check certifies the distance
and date conditions. -/
theorem poiConflictCheck_some_pos (d : DistFn) (db : Db) (la lo : ℚ) (nd : Option Int)
    (p q : Poi) (sd : Bool) (h : poiConflictCheck d db la lo nd p = some (q, sd)) :
    p.lat ≠ none ∧ p.lng ≠ none ∧ d la lo (p.lat.getD 0) (p.lng.getD 0) ≤ 100 ∧
      ((nd ≠ none ∧ poiEffectiveDate db p = nd) ∨ (nd = none ∧ poiEffectiveDate db p = none)) := by
  by_contra hc
  rw [← poiConflictCheck_none_iff d db la lo nd p] at hc
  rw [h] at hc
  cases hc

/-- The guard scan accepts exactly when no existing POI of the trip
conflicts. -/
theorem poiConflict_none_iff (d : DistFn) (db : Db) (tid : Nat) (la lo : ℚ) (nd : Option Int) :
    poiConflict d db tid la lo nd = none ↔
      ∀ p ∈ db.pois, ¬ ConflictsWith d db tid la lo nd p := by
  unfold poiConflict
  rw [List.findSome?_eq_none_iff]
  constructor
  · intro h p hp hc
    obtain ⟨htrip, hlat, hlng, hrest⟩ := hc
    have hpf : p ∈ db.pois.filter (fun p => decide (p.trip_id = tid ∧ p.lat ≠ none ∧ p.lng ≠ none)) :=
      List.mem_filter.mpr ⟨hp, by simp [htrip, hlat, hlng]⟩
    have hnone := h p hpf
    rw [poiConflictCheck_none_iff] at hnone
    exact hnone ⟨hlat, hlng, hrest⟩
  · intro h p hpf
    rw [poiConflictCheck_none_iff]
    intro hcpos
    rcases List.mem_filter.mp hpf with ⟨hp, hpred⟩
    simp only [decide_eq_true_eq] at hpred
    exact h p hp ⟨hpred.1, hcpos⟩

/-- A rejection of the guard scan comes from a conflicting existing
POI of the trip. -/
theorem poiConflict_some (d : DistFn) (db : Db) (tid : Nat) (la lo : ℚ) (nd : Option Int)
    (q : Poi) (sd : Bool) (h : poiConflict d db tid la lo nd = some (q, sd)) :
    q ∈ db.pois ∧ ConflictsWith d db tid la lo nd q := by
  unfold poiConflict at h
  rcases List.exists_of_findSome?_eq_some h with ⟨p, hpf, hcheck⟩
  have hqp : q = p := poiConflictCheck_some_eq d db la lo nd p q sd hcheck
  subst hqp
  rcases List.mem_filter.mp hpf with ⟨hp, hpred⟩
  simp only [decide_eq_true_eq] at hpred
  exact ⟨hp, hpred.1, poiConflictCheck_some_pos d db la lo nd q q sd hcheck⟩

/-- C2 (amended): for a candidate with truthy (non-null, nonzero)
resolved coordinates, creation is rejected with a conflict naming an
existing conflicting POI exactly when some existing POI of the trip
lies within 100 meters inclusive with both effective dates present and
equal or both absent; otherwise the candidate is inserted. -/
theorem c2_thm (d : DistFn) (tid : Nat) (payload : PoiWrite) (db : Db)
    (htrip : payload.trip_id = tid) (hmem : db.trips.contains tid = true)
    (la lo : ℚ) (hla : payload.lat = some la) (hlo : payload.lng = some lo)
    (hla0 : la ≠ 0) (hlo0 : lo ≠ 0) :
    ((∃ p ∈ db.pois, ConflictsWith d db tid la lo (payload.scheduled_at.map dateOf) p) →
       ∃ q sd, create_poi d tid payload db = .error (.conflictDuplicate q.name sd) ∧
         q ∈ db.pois ∧ ConflictsWith d db tid la lo (payload.scheduled_at.map dateOf) q)
    ∧ ((∀ p ∈ db.pois, ¬ ConflictsWith d db tid la lo (payload.scheduled_at.map dateOf) p) →
       create_poi d tid payload db = .ok ({ db with pois := db.pois ++ [mkPoi (freshPoiId db) payload] }, freshPoiId db)) := by
  unfold create_poi
  rw [if_neg (by simp [htrip]), if_neg (not_not_intro hmem)]
  simp only [hla, hlo]
  rw [if_pos ⟨hla0, hlo0⟩]
  cases hg : poiConflict d db tid la lo (payload.scheduled_at.map dateOf) with
  | some pr =>
    obtain ⟨q, sd⟩ := pr
    have hqc := poiConflict_some d db tid la lo (payload.scheduled_at.map dateOf) q sd hg
    constructor
    · intro _
      exact ⟨q, sd, rfl, hqc⟩
    · intro hall
      have hnone : poiConflict d db tid la lo (payload.scheduled_at.map dateOf) = none :=
        (poiConflict_none_iff d db tid la lo _).mpr hall
      rw [hg] at hnone
      cases hnone
  | none =>
    constructor
    · intro hex
      rcases hex with ⟨p, hp, hc⟩
      rw [poiConflict_none_iff] at hg
      exact absurd hc (hg p hp)
    · intro _
      rfl

/-- C8 (amended): the duplicate check can reject only when both
coordinates are truthy (non-null and nonzero), and a candidate whose
coordinates are not both truthy is inserted with no conflict check. -/
theorem c8_thm (d : DistFn) (tid : Nat) (payload : PoiWrite) (db : Db)
    (htrip : payload.trip_id = tid) (hmem : db.trips.contains tid = true) :
    (¬ (truthyQ payload.lat = true ∧ truthyQ payload.lng = true) →
       create_poi d tid payload db = .ok ({ db with pois := db.pois ++ [mkPoi (freshPoiId db) payload] }, freshPoiId db))
    ∧ (∀ nm sd, create_poi d tid payload db = .error (.conflictDuplicate nm sd) →
       truthyQ payload.lat = true ∧ truthyQ payload.lng = true) := by
  unfold create_poi
  rw [if_neg (by simp [htrip]), if_neg (not_not_intro hmem)]
  cases hla : payload.lat with
  | none =>
    simp only [hla]
    exact ⟨fun _ => trivial, fun nm sd h => Except.noConfusion h⟩
  | some la =>
    cases hlo : payload.lng with
    | none =>
      simp only [hlo]
      exact ⟨fun _ => trivial, fun nm sd h => Except.noConfusion h⟩
    | some lo =>
      simp only [hla, hlo]
      by_cases hz : la ≠ 0 ∧ lo ≠ 0
      · rw [if_pos hz]
        have htt : truthyQ (some la) = true ∧ truthyQ (some lo) = true := by
          simp [truthyQ, hz.1, hz.2]
        constructor
        · intro hnot
          exact absurd htt hnot
        · intro nm sd _
          exact htt
      · rw [if_neg hz]
        exact ⟨fun _ => rfl, fun nm sd h => Except.noConfusion h⟩


/-- C2 witness: the guard theorem applied to concrete same-place
no-date inputs. -/
theorem c2_witness :
    ((∃ p ∈ dbW2.pois, ConflictsWith dEqW dbW2 1 3 5 (payW2.scheduled_at.map dateOf) p) →
       ∃ q sd, create_poi dEqW 1 payW2 dbW2 = .error (.conflictDuplicate q.name sd) ∧
         q ∈ dbW2.pois ∧ ConflictsWith dEqW dbW2 1 3 5 (payW2.scheduled_at.map dateOf) q)
    ∧ ((∀ p ∈ dbW2.pois, ¬ ConflictsWith dEqW dbW2 1 3 5 (payW2.scheduled_at.map dateOf) p) →
       create_poi dEqW 1 payW2 dbW2 = .ok ({ dbW2 with pois := dbW2.pois ++ [mkPoi (freshPoiId dbW2) payW2] }, freshPoiId dbW2)) :=
  c2_thm dEqW 1 payW2 dbW2 (by decide) (by decide) 3 5 (by decide) (by decide) (by decide) (by decide)

/-- C2 counterexample to the claim as stated: a candidate with
resolved coordinates, latitude exactly 0, duplicating an existing
no-date POI at distance 0 is inserted instead of rejected, because the
guard runs under Python truthiness. -/
theorem c2_counterexample :
    (create_poi dEqW 1 payX2 dbX2).toOption.map (fun pr => pr.1.pois.length) = some 2
    ∧ payX2.lat = some 0 ∧ payX2.lng = some 5
    ∧ poiX2 ∈ dbX2.pois ∧ poiX2.lat = some 0 ∧ poiX2.lng = some 5 ∧ poiX2.trip_id = 1
    ∧ dEqW 0 5 0 5 ≤ 100
    ∧ payX2.scheduled_at = none ∧ poiEffectiveDate dbX2 poiX2 = none := by decide

/-- C8 witness: the bypass theorem applied to a candidate without
coordinates. -/
theorem c8_witness :
    (¬ (truthyQ payW8.lat = true ∧ truthyQ payW8.lng = true) →
       create_poi dEqW 1 payW8 dbW2 = .ok ({ dbW2 with pois := dbW2.pois ++ [mkPoi (freshPoiId dbW2) payW8] }, freshPoiId dbW2))
    ∧ (∀ nm sd, create_poi dEqW 1 payW8 dbW2 = .error (.conflictDuplicate nm sd) →
       truthyQ payW8.lat = true ∧ truthyQ payW8.lng = true) :=
  c8_thm dEqW 1 payW8 dbW2 (by decide) (by decide)

/-- C8 counterexample to the claim as stated: a candidate with both
coordinates resolved (non-null) but longitude exactly 0 bypasses
deduplication and is inserted despite an exact duplicate. -/
theorem c8_counterexample :
    (create_poi dEqW 1 payX8 dbX8).toOption.map (fun pr => pr.1.pois.length) = some 2
    ∧ payX8.lat = some 7 ∧ payX8.lng = some 0
    ∧ poiX8 ∈ dbX8.pois ∧ poiX8.lat = some 7 ∧ poiX8.lng = some 0 ∧ poiX8.trip_id = 1
    ∧ dEqW 7 0 7 0 ≤ 100
    ∧ payX8.scheduled_at = none ∧ poiEffectiveDate dbX8 poiX8 = none
    ∧ truthyQ payX8.lng = false := by decide

/-- Inserting by key permutes to consing. -/
theorem insertByKey_perm {α : Type} (key : α → Int) (x : α) (l : List α) :
    (insertByKey key x l).Perm (x :: l) := by
  induction l with
  | nil => exact List.Perm.refl _
  | cons y ys ih =>
    unfold insertByKey
    split
    · exact List.Perm.refl _
    · exact (ih.cons y).trans (List.Perm.swap x y ys)

/-- The insertion fold permutes the accumulator joined with the
input. -/
theorem sortFold_perm {α : Type} (key : α → Int) :
    ∀ (l acc : List α), (l.foldl (fun a x => insertByKey key x a) acc).Perm (acc ++ l) := by
  intro l
  induction l with
  | nil => intro acc; simp
  | cons x xs ih =>
    intro acc
    simp only [List.foldl_cons]
    have h1 := ih (insertByKey key x acc)
    have h2 : (insertByKey key x acc ++ xs).Perm (acc ++ x :: xs) := by
      have h3 : (insertByKey key x acc).Perm (x :: acc) := insertByKey_perm key x acc
      exact (h3.append_right xs).trans List.perm_middle.symm
    exact h1.trans h2

/-- The stable key sort is a permutation. -/
theorem sortByKey_perm {α : Type} (key : α → Int) (l : List α) :
    (sortByKey key l).Perm l := by
  unfold sortByKey
  simpa using sortFold_perm key l []

/-- Membership is invariant under the key sort. -/
theorem mem_sortByKey {α : Type} (key : α → Int) (l : List α) (a : α) :
    a ∈ sortByKey key l ↔ a ∈ l :=
  (sortByKey_perm key l).mem_iff

/-- Insertion by key preserves sortedness. -/
theorem pairwise_insertByKey {α : Type} (key : α → Int) (x : α) (l : List α)
    (h : l.Pairwise (keyLe key)) : (insertByKey key x l).Pairwise (keyLe key) := by
  induction l with
  | nil => exact List.pairwise_singleton _ _
  | cons y ys ih =>
    unfold insertByKey
    rcases List.pairwise_cons.mp h with ⟨hy, hys⟩
    split
    case isTrue hlt =>
      rw [List.pairwise_cons]
      refine ⟨?_, h⟩
      intro z hz
      rcases List.mem_cons.mp hz with rfl | hz2
      · exact le_of_lt hlt
      · exact le_trans (le_of_lt hlt) (hy z hz2)
    case isFalse hge =>
      rw [List.pairwise_cons]
      refine ⟨?_, ih hys⟩
      intro z hz
      have hz2 : z = x ∨ z ∈ ys := by
        have := (insertByKey_perm key x ys).mem_iff.mp hz
        exact List.mem_cons.mp this
      rcases hz2 with rfl | hz3
      · exact le_of_not_lt hge
      · exact hy z hz3

/-- The key sort produces a list sorted by the key. -/
theorem pairwise_sortByKey {α : Type} (key : α → Int) (l : List α) :
    (sortByKey key l).Pairwise (keyLe key) := by
  unfold sortByKey
  have haux : ∀ (l2 acc : List α), acc.Pairwise (keyLe key) →
      (l2.foldl (fun a x => insertByKey key x a) acc).Pairwise (keyLe key) := by
    intro l2
    induction l2 with
    | nil => intro acc h; exact h
    | cons x xs ih =>
      intro acc h
      simp only [List.foldl_cons]
      exact ih _ (pairwise_insertByKey key x acc h)
  exact haux l [] List.Pairwise.nil

/-- The free-time scan of the code coincides with the spec-side
consecutive-pair windows. -/
theorem freeSlots_eq_specFreeSlots : ∀ l : List ScheduleActivity, freeSlots l = specFreeSlots l := by
  intro l
  match l with
  | [] => rfl
  | [a] => rfl
  | a :: b :: rest =>
    have ih := freeSlots_eq_specFreeSlots (b :: rest)
    unfold freeSlots specFreeSlots
    simp only [List.tail_cons, List.zip_cons_cons, List.filterMap_cons]
    unfold specFreeSlots at ih
    simp only [List.tail_cons] at ih
    cases he : a.end_time with
    | none => simp [gapWindow, he, ih]
    | some e =>
      cases hs : b.start_time with
      | none => simp [gapWindow, he, hs, ih]
      | some s =>
        dsimp only
        by_cases hgap : (900 : Int) ≤ s - e
        · rw [if_pos hgap]
          have : gapWindow (a, b) = some ⟨e, s, Int.tdiv (s - e) 60⟩ := by
            unfold gapWindow
            dsimp only
            simp only [he, hs]
            rw [if_pos (show (15 : Int) * 60 ≤ s - e by omega)]
          rw [this]
          simp [ih]
        · rw [if_neg hgap]
          have : gapWindow (a, b) = none := by
            unfold gapWindow
            dsimp only
            simp only [he, hs]
            rw [if_neg (show ¬ (15 : Int) * 60 ≤ s - e by omega)]
          rw [this]
          simp [ih]

/-- Every emitted free-time slot spans at least 15 minutes and stores
the truncated whole-minute duration of its own gap. -/
theorem freeSlots_props : ∀ (l : List ScheduleActivity) (sl : FreeTimeSlot), sl ∈ freeSlots l →
    sl.duration_minutes = Int.tdiv (sl.end_time - sl.start_time) 60 ∧
    900 ≤ sl.end_time - sl.start_time := by
  intro l
  match l with
  | [] => intro sl h; cases h
  | [a] => intro sl h; cases h
  | a :: b :: rest =>
    intro sl h
    have ih := freeSlots_props (b :: rest) sl
    unfold freeSlots at h
    cases he : a.end_time with
    | none =>
      rw [he] at h
      exact ih h
    | some e =>
      cases hs : b.start_time with
      | none =>
        rw [he, hs] at h
        exact ih h
      | some s =>
        rw [he, hs] at h
        dsimp only at h
        by_cases hgap : (900 : Int) ≤ s - e
        · rw [if_pos hgap] at h
          rcases List.mem_cons.mp h with rfl | h2
          · exact ⟨rfl, hgap⟩
          · exact ih h2
        · rw [if_neg hgap] at h
          exact ih h

/-- Every activity in a bucket after an insertion was in that bucket
before or is the inserted one. -/
theorem mem_addToDays (days : List (Int × List ScheduleActivity)) (dk : Int)
    (a : ScheduleActivity) (k : Int) (acts : List ScheduleActivity)
    (h : (k, acts) ∈ addToDays days dk a) :
    ∀ x ∈ acts, (∃ acts0, (k, acts0) ∈ days ∧ x ∈ acts0) ∨ x = a := by
  induction days generalizing k acts with
  | nil =>
    unfold addToDays at h
    rw [List.mem_singleton, Prod.mk.injEq] at h
    intro x hx
    rw [h.2] at hx
    rw [List.mem_singleton] at hx
    exact Or.inr hx
  | cons pr rest ih =>
    obtain ⟨k0, as0⟩ := pr
    unfold addToDays at h
    split at h
    · rcases List.mem_cons.mp h with heq | htl
      · rw [Prod.mk.injEq] at heq
        intro x hx
        rw [heq.2] at hx
        rcases List.mem_append.mp hx with hx1 | hx2
        · exact Or.inl ⟨as0, by rw [heq.1]; exact List.mem_cons_self _ _, hx1⟩
        · rw [List.mem_singleton] at hx2
          exact Or.inr hx2
      · intro x hx
        exact Or.inl ⟨acts, List.mem_cons_of_mem _ htl, hx⟩
    · rcases List.mem_cons.mp h with heq | htl
      · rw [Prod.mk.injEq] at heq
        intro x hx
        exact Or.inl ⟨acts, by rw [heq.1, ← heq.2]; exact List.mem_cons_self _ _, hx⟩
      · intro x hx
        rcases ih k acts htl x hx with ⟨acts0, h1, h2⟩ | h1
        · exact Or.inl ⟨acts0, List.mem_cons_of_mem _ h1, h2⟩
        · exact Or.inr h1

/-- Every activity in a bucket of the day grouping comes from the
initial buckets or from the grouped list. -/
theorem groupByDay_sub :
    ∀ (l : List ScheduleActivity) (acc : List (Int × List ScheduleActivity))
      (k : Int) (acts : List ScheduleActivity),
      (k, acts) ∈ groupByDay l acc → ∀ x ∈ acts,
      (∃ acts0, (k, acts0) ∈ acc ∧ x ∈ acts0) ∨ x ∈ l := by
  intro l
  induction l with
  | nil =>
    intro acc k acts h x hx
    exact Or.inl ⟨acts, h, hx⟩
  | cons a rest ih =>
    intro acc k acts h x hx
    unfold groupByDay at h
    cases hst : a.start_time with
    | none =>
      rw [hst] at h
      rcases ih acc k acts h x hx with h1 | h1
      · exact Or.inl h1
      · exact Or.inr (List.mem_cons_of_mem a h1)
    | some ts =>
      rw [hst] at h
      rcases ih _ k acts h x hx with ⟨acts0, h1, h2⟩ | h1
      · rcases mem_addToDays acc (dateOf ts) a k acts0 h1 x h2 with h3 | h3
        · exact Or.inl h3
        · exact Or.inr (h3 ▸ List.mem_cons_self a rest)
      · exact Or.inr (List.mem_cons_of_mem a h1)

/-- C5: in every schedule produced by `get_schedule`, each day has its
activities sorted by start time ascending, its free-time slots are
exactly the spec-side windows over consecutive pairs (one window per
qualifying pair, none when an end or start is missing), each window
spans at least 15 minutes with its duration the whole-minute
truncation of the gap, and the days are sorted by date ascending. -/
theorem c5_thm (tid : Nat) (db : Db) (sched : TripSchedule)
    (h : get_schedule tid db = .ok sched) :
    (∀ day ∈ sched.days, day.activities.Pairwise (keyLe startKey)) ∧
    (∀ day ∈ sched.days, day.free_time_slots = specFreeSlots day.activities) ∧
    (∀ day ∈ sched.days, ∀ sl ∈ day.free_time_slots,
       sl.duration_minutes = Int.tdiv (sl.end_time - sl.start_time) 60 ∧
       900 ≤ sl.end_time - sl.start_time) ∧
    sched.days.Pairwise (fun d1 d2 => d1.date ≤ d2.date) := by
  unfold get_schedule at h
  split at h
  · cases h
  simp only [Except.ok.injEq] at h
  subst h
  have hday : ∀ day ∈ sortByKey (fun dy => ScheduleDay.date dy)
      ((groupByDay (sortByKey startKey (allActivities tid db)) []).map buildDay),
      ∃ pr, day = buildDay pr := by
    intro day hmem
    rw [mem_sortByKey] at hmem
    rcases List.mem_map.mp hmem with ⟨pr, _, hpr⟩
    exact ⟨pr, hpr.symm⟩
  refine ⟨?_, ?_, ?_, ?_⟩
  · intro day hmem
    rcases hday day hmem with ⟨pr, hpr⟩
    rw [hpr]
    unfold buildDay
    exact pairwise_sortByKey startKey pr.2
  · intro day hmem
    rcases hday day hmem with ⟨pr, hpr⟩
    rw [hpr]
    unfold buildDay
    exact freeSlots_eq_specFreeSlots _
  · intro day hmem sl hsl
    rcases hday day hmem with ⟨pr, hpr⟩
    rw [hpr] at hsl
    exact freeSlots_props _ sl hsl
  · exact pairwise_sortByKey (fun dy => ScheduleDay.date dy) _

/-- C5 witness: the schedule theorem applied to a concrete two-activity
day with a 30-minute gap. -/
theorem c5_witness :
    (∀ day ∈ schedW5.days, day.activities.Pairwise (keyLe startKey)) ∧
    (∀ day ∈ schedW5.days, day.free_time_slots = specFreeSlots day.activities) ∧
    (∀ day ∈ schedW5.days, ∀ sl ∈ day.free_time_slots,
       sl.duration_minutes = Int.tdiv (sl.end_time - sl.start_time) 60 ∧
       900 ≤ sl.end_time - sl.start_time) ∧
    schedW5.days.Pairwise (fun d1 d2 => d1.date ≤ d2.date) :=
  c5_thm 1 dbW5 schedW5 (by decide)

/-- C6 (amended): every schedule activity of type `poi` is the
projection of a scheduled POI of the trip, with start equal to its
`scheduled_at`, end equal to start plus `duration_minutes` minutes
when that value is set and nonzero, and a null end when it is unset or
zero (Python truthiness makes a zero duration falsy). -/
theorem c6_thm (tid : Nat) (db : Db) (sched : TripSchedule)
    (h : get_schedule tid db = .ok sched) :
    poiProjectionPost tid db sched := by
  unfold poiProjectionPost
  unfold get_schedule at h
  split at h
  · cases h
  simp only [Except.ok.injEq] at h
  subst h
  intro day hmem a ha htype
  rw [mem_sortByKey] at hmem
  rcases List.mem_map.mp hmem with ⟨pr, hprmem, hpr⟩
  rw [← hpr] at ha
  unfold buildDay at ha
  rw [mem_sortByKey] at ha
  obtain ⟨k, acts⟩ := pr
  have hsub := groupByDay_sub _ [] k acts hprmem a ha
  rcases hsub with ⟨acts0, h1, _⟩ | h1
  · cases h1
  rw [mem_sortByKey] at h1
  unfold allActivities at h1
  rcases List.mem_append.mp h1 with h2 | h2
  · rcases List.mem_map.mp h2 with ⟨p, hpmem, hpa⟩
    unfold scheduledPois at hpmem
    rw [mem_sortByKey, List.mem_filter] at hpmem
    rcases hpmem with ⟨hpdb, hpred⟩
    simp only [decide_eq_true_eq] at hpred
    rcases hpred with ⟨hptrip, hpsched⟩
    rcases Option.ne_none_iff_exists.mp hpsched with ⟨t, ht⟩
    refine ⟨p, hpdb, hptrip, t, ht.symm, hpa.symm, ?_, ?_, ?_⟩
    · rw [← hpa]
      unfold poiActivity
      exact ht.symm
    · intro dm hdm hdm0
      rw [← hpa]
      unfold poiActivity
      simp only [← ht, hdm]
      rw [if_pos hdm0]
    · intro hdm
      rw [← hpa]
      unfold poiActivity
      rcases hdm with hdm | hdm
      · simp only [← ht, hdm]
      · simp only [← ht, hdm]
        rw [if_neg (by omega)]
  · exfalso
    rcases List.mem_map.mp h2 with ⟨it, _, hia⟩
    rw [← hia] at htype
    unfold itemActivity at htype
    simp at htype

/-- C6 witness: the projection theorem applied to the concrete witness
schedule. -/
theorem c6_witness : poiProjectionPost 1 dbW5 schedW5 :=
  c6_thm 1 dbW5 schedW5 (by decide)

/-- C6 counterexample to the claim as stated: a POI scheduled at the
epoch with `duration_minutes = 0` projects to an activity whose end
time is null, while the claim demands `scheduled_at + 0`. -/
theorem c6_counterexample :
    (get_schedule 1 dbX6).toOption.map
        (fun s => s.days.map (fun dday => dday.activities.map (fun a => (a.id, a.start_time, a.end_time))))
      = some [[("poi_1", some 0, none)]]
    ∧ poiX6.duration_minutes = some 0 ∧ poiX6.scheduled_at = some 0
    ∧ (none : Option Ts) ≠ some (0 + 0 * 60) := by decide

/-- The selection loop over a nonempty candidate list is the
strict-improvement fold started at its head. -/
theorem selectNearest_cons (dist : Nat → ℚ) (c : Nat) (cs : List Nat) :
    selectNearest dist (c :: cs) = some (bestFold dist c cs) := by
  unfold selectNearest bestFold
  simp only [List.foldl_cons]
  induction cs generalizing c with
  | nil => rfl
  | cons j l ih =>
    simp only [List.foldl_cons]
    rw [show ((if dist j < dist c then some j else some c) : Option Nat)
        = some (if dist j < dist c then j else c) from by split <;> rfl]
    exact ih _

/-- Over an ascending candidate list the strict-improvement fold
returns a member of minimal distance, and the lowest index among
equidistant minimizers. -/
theorem bestFold_min (dist : Nat → ℚ) :
    ∀ (l : List Nat) (b : Nat), (b :: l).Pairwise (· < ·) →
    bestFold dist b l ∈ b :: l ∧
    ∀ x ∈ b :: l, dist (bestFold dist b l) < dist x ∨
      (dist (bestFold dist b l) = dist x ∧ bestFold dist b l ≤ x) := by
  intro l
  induction l with
  | nil =>
    intro b _
    refine ⟨List.mem_singleton_self b, ?_⟩
    intro x hx
    rw [List.mem_singleton] at hx
    subst hx
    exact Or.inr ⟨rfl, le_refl _⟩
  | cons j l ih =>
    intro b hp
    have hbj : b < j := (List.pairwise_cons.mp hp).1 j (List.mem_cons_self j l)
    have hp2 : (j :: l).Pairwise (· < ·) := (List.pairwise_cons.mp hp).2
    have hbl : ∀ y ∈ l, b < y := fun y hy =>
      (List.pairwise_cons.mp hp).1 y (List.mem_cons_of_mem j hy)
    by_cases hjb : dist j < dist b
    · have hfold2 : bestFold dist b (j :: l) = bestFold dist j l := by
        unfold bestFold
        simp only [List.foldl_cons, if_pos hjb]
      rcases ih j hp2 with ⟨hmem, hmin⟩
      rw [hfold2]
      refine ⟨List.mem_cons_of_mem b hmem, ?_⟩
      intro x hx
      rcases List.mem_cons.mp hx with hxb | hx2
      · rw [hxb]
        left
        rcases hmin j (List.mem_cons_self j l) with hlt | ⟨heq, _⟩
        · exact lt_trans hlt hjb
        · exact heq ▸ hjb
      · exact hmin x hx2
    · have hpb : (b :: l).Pairwise (· < ·) :=
        List.pairwise_cons.mpr ⟨hbl, (List.pairwise_cons.mp hp2).2⟩
      rcases ih b hpb with ⟨hmem, hmin⟩
      have hfold2 : bestFold dist b (j :: l) = bestFold dist b l := by
        unfold bestFold
        simp only [List.foldl_cons, if_neg hjb]
      rw [hfold2]
      constructor
      · rcases List.mem_cons.mp hmem with hh | hh
        · rw [hh]
          exact List.mem_cons_self b (j :: l)
        · exact List.mem_cons_of_mem b (List.mem_cons_of_mem j hh)
      · intro x hx
        rcases List.mem_cons.mp hx with hxb | hx2
        · rw [hxb]
          exact hmin b (List.mem_cons_self b l)
        rcases List.mem_cons.mp hx2 with hxj | hx3
        · rw [hxj]
          have hbx : dist b ≤ dist j := le_of_not_lt hjb
          rcases hmin b (List.mem_cons_self b l) with hlt | ⟨heq, hle⟩
          · exact Or.inl (lt_of_lt_of_le hlt hbx)
          · rcases lt_or_eq_of_le hbx with h1 | h1
            · exact Or.inl (lt_of_le_of_lt (le_of_eq heq) h1)
            · exact Or.inr ⟨heq.trans h1, le_of_lt (lt_of_le_of_lt hle hbj)⟩
        · exact hmin x (List.mem_cons_of_mem b hx3)

/-- The selection loop realizes one greedy step: it returns an
unvisited index of minimal distance with ties to the lowest index. -/
theorem selectNearest_step (dist : Nat → ℚ) (c : Nat) (cs : List Nat)
    (h : (c :: cs).Pairwise (· < ·)) :
    ∃ j, selectNearest dist (c :: cs) = some j ∧ j ∈ c :: cs ∧
      ∀ k ∈ c :: cs, dist j < dist k ∨ (dist j = dist k ∧ j ≤ k) := by
  rcases bestFold_min dist cs c h with ⟨hmem, hmin⟩
  exact ⟨bestFold dist c cs, selectNearest_cons dist c cs, hmem, hmin⟩

/-- The nearest-neighbor loop is a greedy chain over any ascending
remaining list when given exactly enough iterations. -/
theorem nnLoop_isGreedy (dist2 : Nat → Nat → ℚ) :
    ∀ (fuel : Nat) (rem : List Nat) (cur : Nat), fuel = rem.length →
      rem.Pairwise (· < ·) →
      IsGreedy dist2 cur rem (nnLoop dist2 fuel cur rem) := by
  intro fuel
  induction fuel with
  | zero =>
    intro rem cur hlen _
    have : rem = [] := List.eq_nil_of_length_eq_zero hlen.symm
    subst this
    exact IsGreedy.nil cur
  | succ n ih =>
    intro rem cur hlen hp
    cases rem with
    | nil => cases hlen
    | cons c cs =>
      rcases selectNearest_step (dist2 cur) c cs hp with ⟨j, hsel, hjmem, hjmin⟩
      have hred : nnLoop dist2 (n + 1) cur (c :: cs) = j :: nnLoop dist2 n j ((c :: cs).erase j) := by
        simp only [nnLoop]
        rw [hsel]
      rw [hred]
      have hlen2 : n = ((c :: cs).erase j).length := by
        rw [List.length_erase_of_mem hjmem, List.length_cons]
        simp only [List.length_cons] at hlen
        omega
      have hp2 : ((c :: cs).erase j).Pairwise (· < ·) :=
        hp.sublist (List.erase_sublist j (c :: cs))
      exact IsGreedy.cons hjmem hjmin (ih _ j hlen2 hp2)

/-- The nearest-neighbor loop visits each remaining index exactly
once. -/
theorem nnLoop_perm (dist2 : Nat → Nat → ℚ) :
    ∀ (fuel : Nat) (rem : List Nat) (cur : Nat), fuel = rem.length →
      rem.Pairwise (· < ·) →
      (nnLoop dist2 fuel cur rem).Perm rem := by
  intro fuel
  induction fuel with
  | zero =>
    intro rem cur hlen _
    have : rem = [] := List.eq_nil_of_length_eq_zero hlen.symm
    subst this
    exact List.Perm.refl []
  | succ n ih =>
    intro rem cur hlen hp
    cases rem with
    | nil => cases hlen
    | cons c cs =>
      rcases selectNearest_step (dist2 cur) c cs hp with ⟨j, hsel, hjmem, hjmin⟩
      have hred : nnLoop dist2 (n + 1) cur (c :: cs) = j :: nnLoop dist2 n j ((c :: cs).erase j) := by
        simp only [nnLoop]
        rw [hsel]
      rw [hred]
      have hlen2 : n = ((c :: cs).erase j).length := by
        rw [List.length_erase_of_mem hjmem, List.length_cons]
        simp only [List.length_cons] at hlen
        omega
      have hp2 : ((c :: cs).erase j).Pairwise (· < ·) :=
        hp.sublist (List.erase_sublist j (c :: cs))
      exact ((ih _ j hlen2 hp2).cons j).trans (List.perm_cons_erase hjmem).symm

/-- The unvisited indices at the start are 1..n-1 in order. -/
theorem range_filter_ne_zero (m : Nat) :
    (List.range (m + 1)).filter (fun j => decide (j ≠ 0)) = (List.range m).map (· + 1) := by
  rw [List.range_succ_eq_map, List.filter_cons]
  simp


/-- C7: for at least 3 points the visiting order of `optimize_route`
is the deterministic nearest-neighbor tour over the symmetric distance
matrix, starting at index 0, taking at each step the unvisited index
of minimal matrix distance with equidistant ties resolved to the
lowest index, visiting all points, and appending the starting index
once when roundtrip; as a pure function of its input it returns the
identical order on repeated calls. -/
theorem c7_thm (d : DistFn) (pts : List (ℚ × ℚ)) (rt : Bool) (h3 : 3 ≤ pts.length) :
    nnPost d pts rt := by
  obtain ⟨m, hm⟩ : ∃ m, pts.length = m + 1 := ⟨pts.length - 1, by omega⟩
  have hrem : (List.range pts.length).filter (fun j => decide (j ≠ 0)) = (List.range m).map (· + 1) := by
    rw [hm]
    exact range_filter_ne_zero m
  have hremlen : ((List.range pts.length).filter (fun j => decide (j ≠ 0))).length = m := by
    rw [hrem, List.length_map, List.length_range]
  have hrempw : ((List.range pts.length).filter (fun j => decide (j ≠ 0))).Pairwise (· < ·) :=
    (List.pairwise_lt_range pts.length).sublist (List.filter_sublist _)
  have hfuel : pts.length - 1 = ((List.range pts.length).filter (fun j => decide (j ≠ 0))).length := by
    rw [hremlen]
    omega
  have hcore : visitOrderCore d pts
      = 0 :: nnLoop (distMat d pts) (pts.length - 1) 0 ((List.range pts.length).filter (fun j => decide (j ≠ 0))) := rfl
  have h0f : 0 :: (List.range pts.length).filter (fun j => decide (j ≠ 0)) = List.range pts.length := by
    rw [hrem, hm, List.range_succ_eq_map]
  refine ⟨?_, ?_, ?_, ?_, ?_⟩
  · unfold visitOrder
    cases rt <;> simp [hcore]
  · rw [hcore]
    rfl
  · rw [hcore]
    have hperm := nnLoop_perm (distMat d pts) (pts.length - 1) _ 0 hfuel hrempw
    nth_rewrite 2 [← h0f]
    exact hperm.cons 0
  · rw [hcore]
    exact nnLoop_isGreedy (distMat d pts) _ _ 0 hfuel hrempw
  · intro i j
    unfold distMat
    rcases Nat.lt_trichotomy i j with h | h | h
    · rw [if_neg (by omega : ¬ i = j), if_neg (by omega : ¬ j = i),
        if_pos h, if_pos h, if_neg (by omega : ¬ j < i), if_neg (by omega : ¬ j < i)]
    · subst h
      rfl
    · rw [if_neg (by omega : ¬ i = j), if_neg (by omega : ¬ j = i),
        if_neg (by omega : ¬ i < j), if_neg (by omega : ¬ i < j), if_pos h, if_pos h]

/-- C7 witness: the nearest-neighbor theorem applied to four concrete
points with roundtrip. -/
theorem c7_witness : nnPost dEqW ptsW7 true :=
  c7_thm dEqW ptsW7 true (by decide)

/-- C9: whenever the oracle call made by `optimize_route` fails with a
network error or returns a non-success status, the endpoint propagates
exactly the upstream-derived error (502 with the exception message, or
400 with the upstream message), so no default or unoptimized result is
ever returned in its place. -/
theorem c9_thm (oracle : List (ℚ × ℚ) → OracleReply) (d : DistFn) (pts : List (ℚ × ℚ))
    (rt : Bool) (h2 : 2 ≤ pts.length)
    (e : ApiErr) (hfail : upstreamErr (oracle (calledPoints d pts rt)) = some e) :
    optimize_route oracle d pts rt none = .error e := by
  unfold optimize_route
  rw [if_neg (Nat.not_lt.mpr h2)]
  cases ho : oracle (calledPoints d pts rt) with
  | netErr m =>
    rw [ho] at hfail
    simp only [upstreamErr, Option.some.injEq] at hfail
    subst hfail
    rfl
  | reply code msg routes =>
    rw [ho] at hfail
    simp only [upstreamErr] at hfail
    by_cases hcode : code = "Ok"
    · rw [if_neg (not_not_intro hcode)] at hfail
      cases hfail
    · rw [if_pos hcode] at hfail
      simp only [Option.some.injEq] at hfail
      subst hfail
      simp [hcode]

/-- C9 witness: a simulated oracle timeout on three points yields the
502 upstream error. -/
theorem c9_witness :
    upstreamErr (oracleDown9 (calledPoints dEqW ptsW9 false)) = some (.badGateway ("OSRM API error: timeout")) ∧
    optimize_route oracleDown9 dEqW ptsW9 false none = .error (.badGateway ("OSRM API error: timeout")) :=
  ⟨by decide, c9_thm oracleDown9 dEqW ptsW9 false (by decide)
    (.badGateway ("OSRM API error: timeout")) (by decide)⟩

/-- C10: both POI update endpoints write the payload fields
unconditionally: when the row is found (and, for PUT, the trip
matches) the result is success with exactly those fields stored, and
neither endpoint can ever return the duplicate-POI conflict. -/
theorem c10_thm (tid pid : Nat) (payload : PoiWrite) (patch : PoiPatch) (db : Db)
    (hnd : IdsOk db) :
    ((∀ nm sd, update_poi tid pid payload db ≠ .error (.conflictDuplicate nm sd)) ∧
     (∀ poi ∈ db.pois, poi.id = pid → poi.trip_id = tid → payload.trip_id = tid →
        ∃ db2, update_poi tid pid payload db = .ok db2 ∧
          putResult poi payload ∈ db2.pois ∧
          ∀ q ∈ db2.pois, q.id = pid → q = putResult poi payload))
    ∧ ((∀ nm sd, update_poi_by_id pid patch db ≠ .error (.conflictDuplicate nm sd)) ∧
       (∀ poi ∈ db.pois, poi.id = pid →
          ∃ db2, update_poi_by_id pid patch db = .ok db2 ∧
            applyPatch poi patch ∈ db2.pois ∧
            ∀ q ∈ db2.pois, q.id = pid → q = applyPatch poi patch)) := by
  refine ⟨⟨?_, ?_⟩, ?_, ?_⟩
  · intro nm sd h
    unfold update_poi at h
    split at h
    · simp at h
    · split at h
      · simp at h
      · simp at h
  · intro poi hpoi hid htr htrp
    have hfind : findPoiInTrip db pid tid = some poi := by
      apply find?_eq_some_of_nodup_key (·.id) _ _ hnd.1 poi hpoi
      · simp [hid, htr]
      · intro x hx
        simp only [decide_eq_true_eq] at hx
        rw [hx.1, hid]
    unfold update_poi
    simp only [hfind]
    rw [if_neg (not_not_intro htrp)]
    refine ⟨_, rfl, ?_, ?_⟩
    · refine List.mem_map.mpr ⟨poi, hpoi, ?_⟩
      rw [if_pos ⟨hid, htr⟩]
    · intro q hq hqid
      rcases List.mem_map.mp hq with ⟨q0, hq0, rfl⟩
      by_cases hc : q0.id = pid ∧ q0.trip_id = tid
      · rw [if_pos hc]
      · rw [if_neg hc] at hqid ⊢
        have : q0 = poi := eq_of_mem_nodup_key (·.id) _ hnd.1 q0 poi hq0 hpoi (hqid.trans hid.symm)
        exact absurd ⟨hqid.trans hid.symm ▸ this ▸ hid, this ▸ htr⟩ hc
  · intro nm sd h
    unfold update_poi_by_id at h
    split at h
    · simp at h
    · simp at h
  · intro poi hpoi hid
    have hfind : db.pois.find? (fun p => decide (p.id = pid)) = some poi := by
      apply find?_eq_some_of_nodup_key (·.id) _ _ hnd.1 poi hpoi
      · simp [hid]
      · intro x hx
        simp only [decide_eq_true_eq] at hx
        rw [hx, hid]
    unfold update_poi_by_id
    simp only [hfind]
    refine ⟨_, rfl, ?_, ?_⟩
    · refine List.mem_map.mpr ⟨poi, hpoi, ?_⟩
      rw [if_pos rfl]
    · intro q hq hqid
      rcases List.mem_map.mp hq with ⟨q0, hq0, rfl⟩
      by_cases hc : q0.id = poi.id
      · have : q0 = poi := eq_of_mem_nodup_key (·.id) _ hnd.1 q0 poi hq0 hpoi hc
        rw [if_pos hc, this]
      · rw [if_neg hc] at hqid ⊢
        exact absurd (hqid.trans hid.symm) hc

/-- C10 witness: the update theorem applied to a PUT and a PATCH that
move a POI exactly onto the coordinates of another same-trip POI. -/
theorem c10_witness :
    ((∀ nm sd, update_poi 1 2 payW10 dbW10 ≠ .error (.conflictDuplicate nm sd)) ∧
     (∀ poi ∈ dbW10.pois, poi.id = 2 → poi.trip_id = 1 → payW10.trip_id = 1 →
        ∃ db2, update_poi 1 2 payW10 dbW10 = .ok db2 ∧
          putResult poi payW10 ∈ db2.pois ∧
          ∀ q ∈ db2.pois, q.id = 2 → q = putResult poi payW10))
    ∧ ((∀ nm sd, update_poi_by_id 2 patchW10 dbW10 ≠ .error (.conflictDuplicate nm sd)) ∧
       (∀ poi ∈ dbW10.pois, poi.id = 2 →
          ∃ db2, update_poi_by_id 2 patchW10 dbW10 = .ok db2 ∧
            applyPatch poi patchW10 ∈ db2.pois ∧
            ∀ q ∈ db2.pois, q.id = 2 → q = applyPatch poi patchW10)) :=
  c10_thm 1 2 payW10 patchW10 dbW10 (by decide)

/-- C1: deleting an ItineraryItem that references a POI of the trip
removes the row and then deletes the POI when no references remain,
clears only its `scheduled_at` when references remain but none is
scheduled, and leaves it unchanged otherwise. -/
theorem c1_thm (db : Db) (tid iid pid : Nat) (item : Item) (poi : Poi)
    (hnd : IdsOk db)
    (hitem : item ∈ db.items) (hiid : item.id = iid) (htrip : item.trip_id = tid)
    (hpid : item.poi_id = some pid) (hpid0 : pid ≠ 0)
    (hpoi : poi ∈ db.pois) (hpoiid : poi.id = pid) (hpoitrip : poi.trip_id = tid) :
    deleteCascadePost db tid iid pid poi := by
  have hfindItem : findItemInTrip db iid tid = some item := by
    apply find?_eq_some_of_nodup_key (·.id) _ _ hnd.2 item hitem
    · simp [hiid, htrip]
    · intro x hx
      simp only [decide_eq_true_eq] at hx
      rw [hx.1, hiid]
  have hfindPoi : findPoiInTrip db pid tid = some poi := by
    apply find?_eq_some_of_nodup_key (·.id) _ _ hnd.1 poi hpoi
    · simp [hpoiid, hpoitrip]
    · intro x hx
      simp only [decide_eq_true_eq] at hx
      rw [hx.1, hpoiid]
  have htruthy : truthyId (some pid) = true := by simp [truthyId, hpid0]
  unfold deleteCascadePost delete_item
  rw [hfindItem]
  simp only [hpid, htruthy, hfindPoi]
  set items1 := db.items.filter (fun it => it.id ≠ iid) with hitems1
  set rem := items1.filter (fun it => it.poi_id = some pid) with hrem
  by_cases h1 : rem = []
  · -- POI deleted entirely
    have hlen : rem.length = 0 := by rw [h1]; rfl
    refine ⟨⟨db.trips, db.pois.filter (fun p => p.id ≠ poi.id), items1⟩, ?_, rfl, ?_, ?_, ?_⟩
    · simp [← hrem, hlen]
    · intro _ p hp
      have := (List.mem_filter.mp hp).2
      simpa [hpoiid] using this
    · intro hne
      exact absurd h1 hne
    · intro hne
      exact absurd h1 hne
  · -- POI retained
    have hlen : ¬ rem.length = 0 := by
      simpa [List.length_eq_zero] using h1
    by_cases h2 : ∀ r ∈ rem, r.start_ts = none
    · -- cleared
      have hsched : (items1.filter (fun it => decide (it.poi_id = some pid ∧ it.start_ts ≠ none))).length = 0 := by
        rw [List.length_eq_zero, List.filter_eq_nil_iff]
        intro it hit
        simp only [decide_eq_true_eq, not_and]
        intro hitpid
        have : it ∈ rem := by
          rw [hrem]
          exact List.mem_filter.mpr ⟨hit, by simp [hitpid]⟩
        simpa using h2 it this
      refine ⟨⟨db.trips, db.pois.map (fun p => if p.id = poi.id then { p with scheduled_at := none } else p), items1⟩, ?_, rfl, ?_, ?_, ?_⟩
      · rw [if_neg hlen, if_pos hsched]
      · intro habs
        exact absurd habs h1
      · intro _ _
        constructor
        · refine List.mem_map.mpr ⟨poi, hpoi, ?_⟩
          simp
        · intro p hp hpid2
          rcases List.mem_map.mp hp with ⟨q, hq, hfq⟩
          by_cases hqid : q.id = poi.id
          · have : q = poi := eq_of_mem_nodup_key (·.id) _ hnd.1 q poi hq hpoi hqid
            rw [← hfq, if_pos hqid, this]
          · rw [← hfq, if_neg hqid] at hpid2 ⊢
            exact absurd (hpid2.trans hpoiid.symm) hqid
      · intro _ hex
        rcases hex with ⟨r, hr, hrs⟩
        exact absurd (h2 r hr) hrs
    · -- untouched
      have hsched : ¬ (items1.filter (fun it => decide (it.poi_id = some pid ∧ it.start_ts ≠ none))).length = 0 := by
        push_neg at h2
        rcases h2 with ⟨r, hr, hrs⟩
        rw [List.length_eq_zero, List.filter_eq_nil_iff]
        push_neg
        refine ⟨r, ?_, ?_⟩
        · rw [hrem] at hr
          exact (List.mem_filter.mp hr).1
        · simp only [decide_eq_true_eq]
          refine ⟨?_, hrs⟩
          have := (List.mem_filter.mp (hrem ▸ hr)).2
          simpa using this
      refine ⟨⟨db.trips, db.pois, items1⟩, ?_, rfl, ?_, ?_, ?_⟩
      · rw [if_neg hlen, if_neg hsched]
      · intro habs
        exact absurd habs h1
      · intro _ hall
        push_neg at h2
        rcases h2 with ⟨r, hr, hrs⟩
        exact absurd (hall r hr) hrs
      · intro _ _
        refine ⟨hpoi, ?_⟩
        intro p hp hpid2
        exact eq_of_mem_nodup_key (·.id) _ hnd.1 p poi hp hpoi (hpid2.trans hpoiid.symm)

/-- C1 witness: the cascade theorem applied to a concrete one-item
state. -/
theorem c1_witness : deleteCascadePost dbW1 1 10 2 poiW1 :=
  c1_thm dbW1 1 10 2 itemW1 poiW1 (by decide) (by decide) (by decide) (by decide)
    (by decide) (by decide) (by decide) (by decide) (by decide)

/-- C3 (amended): on item create or update with a truthy `poi_id`, when
the write succeeds the referenced POI of the trip gets
`scheduled_at = start_ts` and, when `end_ts` is present,
`duration_minutes = (end_ts - start_ts) in minutes truncated toward
zero`, overwriting any prior value. -/
theorem c3_thm (tid : Nat) (req : WriteReq) (db db2 : Db)
    (h : applyWrite tid req db = .ok db2)
    (pid : Nat) (hpid : (reqPayload req).poi_id = some pid) (hpid0 : pid ≠ 0) :
    ∃ p ∈ db2.pois, p.id = pid ∧ p.trip_id = tid ∧
      p.scheduled_at = some (reqPayload req).start_ts ∧
      (∀ e, (reqPayload req).end_ts = some e →
        p.duration_minutes = some (Int.tdiv (e - (reqPayload req).start_ts) 60)) := by
  have ht : truthyId (some pid) = true := by simp [truthyId, hpid0]
  cases req with
  | create payload =>
    obtain ⟨ptrip, ppoi, pname, pstart, pend, pstat⟩ := payload
    simp only [reqPayload] at hpid ⊢
    subst hpid
    simp only [applyWrite] at h
    unfold create_item at h
    simp only [ht] at h
    split at h
    · simp [Except.map] at h
    split at h
    · simp [Except.map] at h
    cases hq : findPoiInTrip db pid tid with
    | none => rw [hq] at h; simp [Except.map] at h
    | some q =>
      rw [hq] at h
      simp only [Except.map, Except.ok.injEq] at h
      subst h
      have hqmem := List.mem_of_find?_eq_some hq
      have hqprop := List.find?_some hq
      simp only [decide_eq_true_eq] at hqprop
      simp only [syncPoiFromItem]
      refine ⟨_, List.mem_map_of_mem _ hqmem, ?_⟩
      rw [if_pos ⟨hqprop.1, hqprop.2⟩]
      cases pend with
      | none => simp [hqprop.1, hqprop.2]
      | some e => simp [hqprop.1, hqprop.2]
  | update iid payload =>
    obtain ⟨ptrip, ppoi, pname, pstart, pend, pstat⟩ := payload
    simp only [reqPayload] at hpid ⊢
    subst hpid
    simp only [applyWrite] at h
    unfold update_item at h
    cases hit : findItemInTrip db iid tid with
    | none => rw [hit] at h; simp at h
    | some item =>
      rw [hit] at h
      simp only [ht] at h
      split at h
      case isTrue hcond => simp at h
      case isFalse hcond =>
      split at h
      · simp at h
      cases hq : findPoiInTrip { db with items := db.items.map (fun it => if it.id = iid ∧ it.trip_id = tid then { id := item.id, trip_id := ptrip, poi_id := some pid, name := pname, start_ts := some pstart, end_ts := pend, status := pstat } else it) } pid tid with
      | none =>
        exfalso
        exact hcond ⟨trivial, hq⟩
      | some q =>
        rw [hq] at h
        simp only [Except.ok.injEq] at h
        subst h
        have hqmem := List.mem_of_find?_eq_some hq
        have hqprop := List.find?_some hq
        simp only [decide_eq_true_eq] at hqprop
        simp only [syncPoiFromItem]
        refine ⟨_, List.mem_map_of_mem _ hqmem, ?_⟩
        rw [if_pos ⟨hqprop.1, hqprop.2⟩]
        cases pend with
        | none => simp [hqprop.1, hqprop.2]
        | some e => simp [hqprop.1, hqprop.2]

/-- C3 witness: the synchronization theorem applied to a concrete
creation of a 90-minute item. -/
theorem c3_witness :
    ∃ p ∈ dbW3post.pois, p.id = 2 ∧ p.trip_id = 1 ∧
      p.scheduled_at = some (reqPayload (WriteReq.create payW3)).start_ts ∧
      (∀ e, (reqPayload (WriteReq.create payW3)).end_ts = some e →
        p.duration_minutes = some (Int.tdiv (e - (reqPayload (WriteReq.create payW3)).start_ts) 60)) :=
  c3_thm 1 (.create payW3) dbW3 dbW3post (by decide) 2 (by decide) (by decide)

/-- C3 counterexample to the claim as stated: a 5490-second item
(91.5 minutes) stores `duration_minutes = 91` by truncation, while
rounding as the claim words it gives 92. -/
theorem c3_counterexample :
    (applyWrite 1 (.create payX3) dbX3).toOption.map (fun d => d.pois.map (·.duration_minutes)) = some [some 91]
    ∧ payX3.start_ts = 0 ∧ payX3.end_ts = some 5490
    ∧ round (((5490 : ℚ) - 0) / 60) = 92 ∧ (91 : ℤ) ≠ 92 := by
  refine ⟨by decide, by decide, by decide, ?_, by decide⟩
  norm_num [round_eq]


/-- C4 (amended): an item update that moves `poi_id` away from a
previous POI re-evaluates that POI only when the payload does not
carry a truthy `poi_id`; then, when no other item references it with a
non-null `start_ts`, only its `scheduled_at` is cleared (other fields
kept), otherwise it is untouched; and when the payload carries a
truthy `poi_id` (with its always-present `start_ts`), the previous POI
is left untouched. -/
theorem c4_thm (tid iid : Nat) (payload : ItemWrite) (db db2 : Db) (hnd : IdsOk db)
    (item : Item) (hfind : findItemInTrip db iid tid = some item)
    (op : Nat) (hop : item.poi_id = some op) (hop0 : op ≠ 0)
    (hchanged : item.poi_id ≠ payload.poi_id)
    (oldPoi : Poi) (holdfind : findPoiInTrip db op tid = some oldPoi)
    (h : update_item tid iid payload db = .ok db2) :
    (truthyId payload.poi_id = false →
       (db2.items.filter (fun it => decide (it.poi_id = some op ∧ it.id ≠ iid ∧ it.start_ts ≠ none)) = [] →
          { oldPoi with scheduled_at := none } ∈ db2.pois ∧
          ∀ q ∈ db2.pois, q.id = op → q = { oldPoi with scheduled_at := none }) ∧
       (db2.items.filter (fun it => decide (it.poi_id = some op ∧ it.id ≠ iid ∧ it.start_ts ≠ none)) ≠ [] →
          ∀ q ∈ db2.pois, q.id = op → q = oldPoi))
    ∧ (truthyId payload.poi_id = true →
       ∀ q ∈ db2.pois, q.id = op → q = oldPoi) := by
  have holdmem := List.mem_of_find?_eq_some holdfind
  have holdprop := List.find?_some holdfind
  simp only [decide_eq_true_eq] at holdprop
  rw [hop] at hchanged
  have htop : truthyId (some op) = true := by simp [truthyId, hop0]
  unfold update_item at h
  split at h
  case h_1 heq => rw [hfind] at heq; cases heq
  case h_2 item' heq =>
  rw [hfind, Option.some.injEq] at heq
  subst heq
  rw [hop] at h
  split at h
  case isTrue => simp at h
  case isFalse hcond =>
  split at h
  · simp at h
  split at h
  case h_1 pid' heq1 heq2 =>
    have hne : op ≠ pid' := fun hcontra => hchanged (by rw [hcontra, heq1])
    constructor
    · intro hfalse
      rw [heq2] at hfalse
      cases hfalse
    · intro _ q hq hqid
      simp only [heq1] at h
      split at h
      case h_1 val heqf =>
        simp only [Except.ok.injEq] at h
        subst h
        simp only [syncPoiFromItem] at hq
        rcases List.mem_map.mp hq with ⟨q0, hq0, rfl⟩
        by_cases hc : q0.id = pid' ∧ q0.trip_id = tid
        · exfalso
          rw [if_pos hc] at hqid
          cases hend : payload.end_ts with
          | none => rw [hend] at hqid; simp at hqid; exact hne (hqid ▸ hc.1)
          | some e => rw [hend] at hqid; simp at hqid; exact hne (hqid ▸ hc.1)
        · rw [if_neg hc] at hqid ⊢
          exact eq_of_mem_nodup_key (·.id) _ hnd.1 q0 oldPoi hq0 holdmem (hqid.trans holdprop.1.symm)
      case h_2 heqf =>
        simp only [Except.ok.injEq] at h
        subst h
        exact eq_of_mem_nodup_key (·.id) _ hnd.1 q oldPoi hq holdmem (hqid.trans holdprop.1.symm)
  case h_2 x1 x2 hno =>
    have htf : truthyId payload.poi_id = false := by
      cases hb : truthyId payload.poi_id with
      | false => rfl
      | true =>
        exfalso
        cases hp : payload.poi_id with
        | none => rw [hp] at hb; simp [truthyId] at hb
        | some k => exact hno k hp hb
    simp only [hop] at h
    rw [if_pos ⟨htop, hchanged⟩] at h
    split at h
    case h_2 heqn =>
      exact Option.noConfusion (heqn.symm.trans holdfind)
    case h_1 oldPoi2 heqs =>
    have hsame : oldPoi2 = oldPoi := by
      have := heqs.symm.trans holdfind
      injection this
    subst hsame
    split at h
    case isTrue hemp =>
      simp only [Except.ok.injEq] at h
      subst h
      rw [List.isEmpty_iff] at hemp
      refine ⟨fun _ => ⟨fun _ => ?_, fun hne2 => absurd hemp hne2⟩, fun htt => by rw [htt] at htf; cases htf⟩
      constructor
      · refine List.mem_map.mpr ⟨oldPoi2, holdmem, ?_⟩
        rw [if_pos ⟨rfl, holdprop.2⟩]
      · intro q hq hqid
        rcases List.mem_map.mp hq with ⟨q0, hq0, rfl⟩
        by_cases hc : q0.id = oldPoi2.id ∧ q0.trip_id = tid
        · have : q0 = oldPoi2 := eq_of_mem_nodup_key (·.id) _ hnd.1 q0 oldPoi2 hq0 holdmem hc.1
          rw [if_pos hc, this]
        · rw [if_neg hc] at hqid ⊢
          exfalso
          exact hc ⟨hqid.trans holdprop.1.symm, (eq_of_mem_nodup_key (·.id) _ hnd.1 q0 oldPoi2 hq0 holdmem (hqid.trans holdprop.1.symm)) ▸ holdprop.2⟩
    case isFalse hemp =>
      simp only [Except.ok.injEq] at h
      subst h
      rw [List.isEmpty_iff] at hemp
      refine ⟨fun _ => ⟨fun hfe => absurd hfe hemp, fun _ => ?_⟩, fun htt => by rw [htt] at htf; cases htf⟩
      intro q hq hqid
      exact eq_of_mem_nodup_key (·.id) _ hnd.1 q oldPoi2 hq holdmem (hqid.trans holdprop.1.symm)

/-- C4 witness: the re-evaluation theorem applied to a concrete update
that drops the reference, clearing the previous POI. -/
theorem c4_witness :
    (truthyId payW4.poi_id = false →
       (dbW4post.items.filter (fun it => decide (it.poi_id = some 2 ∧ it.id ≠ 10 ∧ it.start_ts ≠ none)) = [] →
          { poiW4 with scheduled_at := none } ∈ dbW4post.pois ∧
          ∀ q ∈ dbW4post.pois, q.id = 2 → q = { poiW4 with scheduled_at := none }) ∧
       (dbW4post.items.filter (fun it => decide (it.poi_id = some 2 ∧ it.id ≠ 10 ∧ it.start_ts ≠ none)) ≠ [] →
          ∀ q ∈ dbW4post.pois, q.id = 2 → q = poiW4))
    ∧ (truthyId payW4.poi_id = true →
       ∀ q ∈ dbW4post.pois, q.id = 2 → q = poiW4) :=
  c4_thm 1 10 payW4 dbW4 dbW4post (by decide) itemW4 (by decide) 2 (by decide) (by decide)
    (by decide) poiW4 (by decide) (by decide)

/-- C4 counterexample to the claim as stated: moving the only item from
POI 2 to POI 3 with a start time leaves POI 2 with
`scheduled_at = some 500` although no item references it any more,
while the claim demands the re-evaluation clear it. -/
theorem c4_counterexample :
    (update_item 1 10 payX4 dbX4).toOption.map (fun d => d.pois.map (fun p => (p.id, p.scheduled_at)))
      = some [(2, some 500), (3, some 900)]
    ∧ itemX4.poi_id = some 2 ∧ payX4.poi_id = some 3 ∧ dbX4.items = [itemX4]
    ∧ some (500 : Ts) ≠ (none : Option Ts) := by decide

end Planificate
